import Mathlib

/-!
Lotus storage/retrieval client (`node/impl/client/client.go`).

A shallow embedding of the client-side deal code: the deal expiration
calculator, the deal starter (regular and stateless flows), the retrieval
query dispatcher, and the retrieval event bridge with its orchestrator.

Conventions of the embedding:

* Go `int64`/`uint64` epochs and sizes are integers (`Int`/`Nat`); Go's `%`
  on signed integers is truncated remainder, `Int.tmod`.  The expiration
  calculator is given twice: `calcDealExpiration64` with the wrap-around of
  `int64` at every operation (`wrap64`), and `calcDealExpiration` over exact
  integers, which it equals on inputs where nothing overflows.
* A Go call that can panic (integer division by zero, dereferencing a nil
  pointer) or loop returns a `Run`, whose `panic` and `unfinished` cases keep
  those outcomes apart from an ordinary return.
* External collaborators (chain state, wallet, deal stream, markets engine)
  are fields of an environment record; each call made to one is appended
  to a trace, so that "no call was made" is a statement about the trace.
-/

namespace Client

/-! ## Outcomes of running Go code -/

/-- Outcome of running a piece of Go code that has no error result: it
returns a value, it panics at run time (integer division by zero, nil
dereference), or it is still running when the fuel or the input schedule
is used up. -/
inductive Run (α : Type) where
  | ret (a : α)
  | panic
  | unfinished
  deriving DecidableEq, Repr

/-- Outcome of a Go method with a `(value, error)` result. -/
inductive Outcome (ε α : Type) where
  | ok (a : α)
  | err (e : ε)
  | panic
  | unfinished
  deriving DecidableEq, Repr

/-! ## Expiration calculator -/

/-- The two fields of `dline.Info` read by `calcDealExpiration`. -/
structure DlineInfo where
  PeriodStart : Int
  WPoStProvingPeriod : Int
  deriving DecidableEq, Repr

/-- The loop `for exp < minExp { exp += md.WPoStProvingPeriod }`, run for at
most `fuel` iterations of its body. -/
def alignLoop (period minExp : Int) : Nat → Int → Run Int
  | 0, exp => if exp < minExp then .unfinished else .ret exp
  | fuel + 1, exp =>
    if exp < minExp then alignLoop period minExp fuel (exp + period) else .ret exp

/-- The first candidate of `calcDealExpiration`, the value of `exp` before
the alignment loop; `%` is Go's truncated remainder. -/
def firstCandidate (minExp : Int) (md : DlineInfo) : Int :=
  minExp + md.WPoStProvingPeriod - (minExp.tmod md.WPoStProvingPeriod)
    + (md.PeriodStart.tmod md.WPoStProvingPeriod) - 1

/-- Embedding of `calcDealExpiration(minDuration, md, startEpoch)` over exact
integers, the arithmetic of the source when no `int64` operation overflows
(`calcDealExpiration64` below has the wrap-around, and agrees with this
function on inputs that satisfy `noOverflow`).  Go's `%` panics when the
divisor is zero. -/
def calcDealExpiration (fuel : Nat) (minDuration : Nat) (md : DlineInfo)
    (startEpoch : Int) : Run Int :=
  -- Make sure we give some time for the miner to seal
  let minExp := startEpoch + (minDuration : Int)
  if md.WPoStProvingPeriod = 0 then .panic
  else
    -- Align on miners ProvingPeriodBoundary
    let exp := firstCandidate minExp md
    -- Should only be possible for miners created around genesis
    alignLoop md.WPoStProvingPeriod minExp fuel exp

/-- Two's-complement wrap of an exact integer into the range of Go's `int64`
(`9223372036854775808` is `2^63`, `18446744073709551616` is `2^64`): the
result of an `int64` operation whose exact result is `x`. -/
def wrap64 (x : Int) : Int :=
  (x + 9223372036854775808) % 18446744073709551616 - 9223372036854775808

/-- The loop `for exp < minExp { exp += md.WPoStProvingPeriod }` in `int64`
arithmetic, run for at most `fuel` iterations of its body. -/
def alignLoop64 (period minExp : Int) : Nat → Int → Run Int
  | 0, exp => if exp < minExp then .unfinished else .ret exp
  | fuel + 1, exp =>
    if exp < minExp then alignLoop64 period minExp fuel (wrap64 (exp + period)) else .ret exp

/-- The first candidate of `calcDealExpiration` in `int64` arithmetic:
`minExp + P - (minExp % P) + (PeriodStart % P) - 1`, evaluated from left to
right, each operation wrapping. -/
def firstCandidate64 (minExp : Int) (md : DlineInfo) : Int :=
  wrap64 (wrap64 (wrap64 (wrap64 (minExp + md.WPoStProvingPeriod)
    - minExp.tmod md.WPoStProvingPeriod) + md.PeriodStart.tmod md.WPoStProvingPeriod) - 1)

/-- Embedding of `calcDealExpiration(minDuration, md, startEpoch)` with the
source's machine arithmetic: `abi.ChainEpoch` is `int64`, the conversion of
the `uint64` duration and every addition and subtraction wrap.  The epochs
given are taken to be `int64` values and the duration a `uint64` value.
Go's `%` panics when the divisor is zero. -/
def calcDealExpiration64 (fuel : Nat) (minDuration : Nat) (md : DlineInfo)
    (startEpoch : Int) : Run Int :=
  -- Make sure we give some time for the miner to seal
  let minExp := wrap64 (startEpoch + wrap64 (minDuration : Int))
  if md.WPoStProvingPeriod = 0 then .panic
  else
    -- Align on miners ProvingPeriodBoundary
    let exp := firstCandidate64 minExp md
    -- Should only be possible for miners created around genesis
    alignLoop64 md.WPoStProvingPeriod minExp fuel exp

/-- A condition under which no `int64` operation of `calcDealExpiration`
overflows: the duration is below `2^63`, and the window from one period
below the minimum bound `startEpoch + minDuration` to three periods above it
lies in the `int64` range.  With a positive period every intermediate value
of the function lies in this window. -/
def noOverflow (minDuration : Nat) (md : DlineInfo) (startEpoch : Int) : Prop :=
  (minDuration : Int) < 9223372036854775808 ∧
  -9223372036854775808 ≤ startEpoch + (minDuration : Int) - md.WPoStProvingPeriod ∧
  startEpoch + (minDuration : Int) + 3 * md.WPoStProvingPeriod < 9223372036854775808

/-! ## Data model -/

/-- Content identifier (`cid.Cid`); only equality is used. -/
abbrev Cid := Nat

/-- Account or miner address (`address.Address`). -/
abbrev Address := Nat

/-- Peer identity: `peer.ID` is a Go string type, compared with `""`. -/
abbrev PeerID := String

/-- Serialized bytes. -/
abbrev Bytes := List Nat

/-- The fields of `storagemarket.DataRef` read by the client. `PieceCid` is
a pointer in Go (it is dereferenced with `*`), `PieceSize` is the unpadded
piece size. -/
structure DataRef where
  TransferType : String
  Root : Cid
  PieceCid : Option Cid
  PieceSize : Nat
  deriving DecidableEq, Repr

/-- The fields of `api.StartDealParams`; the record itself, its `Data` and
its big-integer fields are taken to be set (non-nil). -/
structure StartDealParams where
  Data : DataRef
  Wallet : Address
  Miner : Address
  EpochPrice : Int
  MinBlocksDuration : Nat
  ProviderCollateral : Int
  DealStartEpoch : Int
  FastRetrieval : Bool
  VerifiedDeal : Bool
  deriving DecidableEq, Repr

/-- The fields of `miner.MinerInfo` read by the client; `PeerId` is a
pointer in Go (it is dereferenced with `*`). -/
structure MinerInfo where
  Worker : Address
  SectorSize : Nat
  PeerId : Option PeerID
  Multiaddrs : List Bytes
  WindowPoStProofType : Nat
  deriving DecidableEq, Repr

/-- Result of `utils.NewStorageProviderInfo`. -/
structure StorageProviderInfo where
  Address : Client.Address
  Worker : Client.Address
  SectorSize : Nat
  PeerID : PeerID
  Addrs : List Bytes
  deriving DecidableEq, Repr

/-- The record `storagemarket.ProposeStorageDealParams` built in the regular flow. -/
structure ProposeStorageDealParams where
  Addr : Address
  Info : StorageProviderInfo
  Data : DataRef
  StartEpoch : Int
  EndEpoch : Int
  Price : Int
  Collateral : Int
  Rt : Nat
  FastRetrieval : Bool
  VerifiedDeal : Bool
  deriving DecidableEq, Repr

/-- The record `market.DealProposal` built in the stateless flow. -/
structure DealProposal where
  PieceCID : Cid
  PieceSize : Nat
  Client : Address
  Provider : Address
  Label : String
  StartEpoch : Int
  EndEpoch : Int
  StoragePricePerEpoch : Int
  ProviderCollateral : Int
  ClientCollateral : Int
  VerifiedDeal : Bool
  deriving DecidableEq, Repr

/-- The record `market.ClientDealProposal`: a proposal and the client's signature. -/
structure ClientDealProposal where
  Proposal : DealProposal
  ClientSignature : Bytes
  deriving DecidableEq, Repr

/-- The message `network.Proposal` written to the deal stream. -/
structure Proposal where
  FastRetrieval : Bool
  DealProposal : ClientDealProposal
  Piece : DataRef
  deriving DecidableEq, Repr

/-- The fields of `network.Response` read back from the deal stream;
`State` is a `storagemarket.StorageDealStatus` (an unsigned integer). -/
structure Response where
  State : Nat
  Message : String
  Proposal : Cid
  deriving DecidableEq, Repr

/-! ## Retrieval data model -/

/-- The undefined identifier `cid.Undef`, the zero value of `cid.Cid`. -/
def Cid.Undef : Cid := 0

/-- The record `retrievalmarket.RetrievalPeer`; `PieceCID` is a pointer in Go. -/
structure RetrievalPeer where
  Address : Client.Address
  ID : PeerID
  PieceCID : Option Cid
  deriving DecidableEq, Repr

/-- Go `retrievalmarket.QueryResponseAvailable` (first of the `iota` block). -/
def QueryResponseAvailable : Nat := 0

/-- Go `retrievalmarket.QueryResponseUnavailable` -/
def QueryResponseUnavailable : Nat := 1

/-- Go `retrievalmarket.QueryResponseError` -/
def QueryResponseError : Nat := 2

/-- The fields of `retrievalmarket.QueryResponse` read by the client;
`Status` is an unsigned integer on the wire, a token amount may be unset. -/
structure QueryResponse where
  Status : Nat
  Size : Nat
  PaymentAddress : Address
  MinPricePerByte : Int
  MaxPaymentInterval : Nat
  MaxPaymentIntervalIncrease : Nat
  Message : String
  UnsealPrice : Option Int
  deriving DecidableEq, Repr

/-- The record `api.QueryOffer`.  A field left out of a Go composite literal
has its zero value: `""`, `0`, `cid.Undef`, nil (`none`). -/
structure QueryOffer where
  Err : String
  Root : Cid
  Piece : Option Cid
  Size : Nat
  MinPrice : Option Int
  UnsealPrice : Option Int
  PaymentInterval : Nat
  PaymentIntervalIncrease : Nat
  Miner : Address
  MinerPeer : RetrievalPeer
  deriving DecidableEq, Repr

/-- The statuses of `retrievalmarket.DealStatus` that the source or the
specification names; `New` is the zero value, `other` stands for every
remaining status code. -/
inductive DealStatus where
  | New
  | Accepted
  | FundsNeeded
  | Completed
  | Rejected
  | Cancelled
  | DealNotFound
  | Errored
  | other (code : Nat)
  deriving DecidableEq, Repr

/-- The fields of `retrievalmarket.ClientDealState` read by the client. -/
structure ClientDealState where
  PayloadCID : Cid
  ID : Nat
  Status : DealStatus
  TotalReceived : Nat
  FundsSpent : Int
  Message : String
  deriving DecidableEq, Repr

/-- The record `retrievalSubscribeEvent`: what the subscription callback
hands to `readSubscribeEvents`. -/
structure retrievalSubscribeEvent where
  event : Nat
  state : ClientDealState
  deriving DecidableEq, Repr

/-- The record `marketevents.RetrievalEvent` sent on the output stream. -/
structure RetrievalEvent where
  Event : Nat
  Status : DealStatus
  BytesReceived : Nat
  FundsSpent : Int
  Err : String
  deriving DecidableEq, Repr

/-- The fields of `api.RetrievalOrder`; `Total` is a big integer whose inner
pointer is tested against nil, `MinerPeer` is a pointer. -/
structure RetrievalOrder where
  Root : Cid
  Piece : Option Cid
  Size : Nat
  LocalCARV2FilePath : String
  Total : Option Int
  UnsealPrice : Option Int
  PaymentInterval : Nat
  PaymentIntervalIncrease : Nat
  Client : Address
  Miner : Address
  MinerPeer : Option RetrievalPeer
  deriving DecidableEq, Repr

/-- The record `api.FileRef`. -/
structure FileRef where
  Path : String
  IsCAR : Bool
  deriving DecidableEq, Repr

/-- The arguments given to `retrievalmarket.NewParamsV1` (the selector is
always `shared.AllSelector()`). -/
structure Params where
  PricePerByte : Int
  PaymentInterval : Nat
  PaymentIntervalIncrease : Nat
  PieceCID : Option Cid
  UnsealPrice : Option Int
  deriving DecidableEq, Repr

/-! ## Collaborator calls -/

/-- One call to an external collaborator, or one operation on the output
stream of a retrieval (`emit` is a send on `events`, `close` closes it). -/
inductive Call where
  | FilestoreCARV2FilePathFor (root : Cid)
  | StateAccountKey (addr : Address)
  | WalletHas (addr : Address)
  | StateMinerInfo (miner : Address)
  | StateMinerProvingDeadline (miner : Address)
  | ChainHead
  | StateNetworkVersion
  | ProposeStorageDeal (p : ProposeStorageDealParams)
  | StateDealProviderCollateralBounds (size : Nat) (verified : Bool)
  | WalletSign (addr : Address) (msg : Bytes)
  | NewDealStream (peer : PeerID)
  | WriteDealProposal (p : Proposal)
  | ReadDealResponse
  | GetPeers (root : Cid)
  | Query (miner : Address) (peer : PeerID) (payload : Cid)
  | SubscribeToEvents
  | Retrieve (root : Cid) (miner : Address) (peer : PeerID)
  | unsubscribe
  | Cleanup (root : Cid)
  | WriteCarV1 (root : Cid) (path : String)
  | WriteUnixFSFile (root : Cid) (path : String)
  | emit (e : RetrievalEvent)
  | close
  deriving DecidableEq, Repr

/-- A computation that calls collaborators: it extends the trace of calls
made so far and ends in an `Outcome`. -/
def Eff (ε α : Type) : Type := List Call → Outcome ε α × List Call

namespace Eff

/-- Return a value without calling anything. -/
def ret {ε α : Type} (a : α) : Eff ε α := fun tr => (.ok a, tr)

/-- Return the error `e` (Go: `return nil, e`). -/
def fail {ε α : Type} (e : ε) : Eff ε α := fun tr => (.err e, tr)

/-- A run-time panic. -/
def crash {ε α : Type} : Eff ε α := fun tr => (.panic, tr)

/-- Sequencing: the rest runs only when the first part returned a value. -/
def andThen {ε α β : Type} (m : Eff ε α) (f : α → Eff ε β) : Eff ε β := fun tr =>
  match m tr with
  | (.ok a, tr1) => f a tr1
  | (.err e, tr1) => (.err e, tr1)
  | (.panic, tr1) => (.panic, tr1)
  | (.unfinished, tr1) => (.unfinished, tr1)

instance (ε : Type) : Monad (Eff ε) where
  pure := ret
  bind := andThen

/-- Call a collaborator: the call is recorded, and its error, if any, is
wrapped by `wrap` and returned (Go: `if err != nil { return nil, wrap(err) }`). -/
def call {ε α : Type} (c : Call) (r : Except String α) (wrap : String → ε) : Eff ε α :=
  fun tr =>
    match r with
    | .ok a => (.ok a, tr ++ [c])
    | .error s => (.err (wrap s), tr ++ [c])

/-- Dereference a Go pointer: nil panics. -/
def deref {ε α : Type} (p : Option α) : Eff ε α :=
  match p with
  | some a => ret a
  | none => crash

/-- Lift a `Run` of pure code. -/
def ofRun {ε α : Type} (r : Run α) : Eff ε α := fun tr =>
  match r with
  | .ret a => (.ok a, tr)
  | .panic => (.panic, tr)
  | .unfinished => (.unfinished, tr)

end Eff

/-! ## Deal starter -/

/-- The errors `dealStarter` returns, one constructor per `xerrors` call
site, carrying the values formatted into the message. -/
inductive DealErr where
  /-- Message "invalid transfer type %s for stateless storage deal" -/
  | invalidTransferType (tt : String)
  /-- Message "stateless storage deals can only be initiated with storage price of 0" -/
  | statelessNonZeroPrice
  /-- Message "failed to find CARv2 file path: %w" -/
  | carPathLookupFailed (e : String)
  /-- Message "no CARv2 file path for deal" -/
  | noCarPath
  /-- Message "failed resolving params.Wallet addr (%s): %w" -/
  | resolveWalletFailed (wallet : Address) (e : String)
  /-- Message "failed getting addr from wallet (%s): %w" -/
  | walletHasFailed (wallet : Address) (e : String)
  /-- Message "provided address doesn't exist in wallet" -/
  | addressNotInWallet
  /-- Message "failed getting peer ID: %w" -/
  | minerInfoFailed (e : String)
  /-- Message "failed getting miner's deadline info: %w" -/
  | deadlineInfoFailed (e : String)
  /-- Message "data doesn't fit in a sector" -/
  | dataDoesNotFit
  /-- Message "failed getting chain height: %w" -/
  | chainHeightFailed (e : String)
  /-- Message "failed to get network version: %w" -/
  | networkVersionFailed (e : String)
  /-- Message "failed to get seal proof type: %w" -/
  | sealProofTypeFailed (e : String)
  /-- Message "failed to start deal: %w" -/
  | startDealFailed (e : String)
  /-- Message "failed to determine minimum provider collateral: %w" -/
  | collateralBoundsFailed (e : String)
  /-- Message "failed to serialize deal proposal: %w" -/
  | serializeProposalFailed (e : String)
  /-- Message "failed to sign proposal : %w" -/
  | signProposalFailed (e : String)
  /-- Message "opening dealstream to %s/%s failed: %w" -/
  | openStreamFailed (miner : Address) (peer : PeerID) (e : String)
  /-- Message "sending deal proposal failed: %w" -/
  | sendProposalFailed (e : String)
  /-- Message "reading proposal response failed: %w" -/
  | readResponseFailed (e : String)
  /-- Message "serializing proposal node failed: %w" -/
  | serializeNodeFailed (e : String)
  /-- Message "provider returned proposal cid %s but we expected %s" -/
  | proposalCidMismatch (returned expected : Cid)
  /-- Message "provider returned unexpected state %d for proposal %s, with message: %s" -/
  | unexpectedState (state : Nat) (proposal : Cid) (message : String)
  deriving DecidableEq, Repr

/-- What `dealStarter` depends on outside this file: the results of the
collaborators it calls (Go `(value, error)` pairs), the library functions it
uses, and the constants it names. -/
structure DealEnv where
  /-- Go `storagemarket.TTManual` -/
  TTManual : String
  /-- Go `storagemarket.TTGraphsync` -/
  TTGraphsync : String
  /-- Go `storagemarket.StorageDealWaitingForData` -/
  StorageDealWaitingForData : Nat
  /-- Go `build.BlockDelaySecs` -/
  BlockDelaySecs : Nat
  /-- Go `abi.UnpaddedPieceSize.Padded` -/
  Padded : Nat → Nat
  /-- Go `miner.PreferredSealProofTypeFromWindowPoStType` -/
  PreferredSealProofTypeFromWindowPoStType : Nat → Nat → Except String Nat
  /-- Go `cid.Cid.Encode` with the base64url encoder -/
  EncodeLabel : Cid → String
  /-- Go `cborutil.Dump` -/
  Dump : DealProposal → Except String Bytes
  /-- Go `cborutil.AsIpld` followed by `Cid()`: the commitment of a signed proposal -/
  AsIpld : ClientDealProposal → Except String Cid
  FilestoreCARV2FilePathFor : Cid → Except String String
  StateAccountKey : Address → Except String Address
  WalletHas : Address → Except String Bool
  StateMinerInfo : Address → Except String MinerInfo
  StateMinerProvingDeadline : Address → Except String DlineInfo
  /-- Go `ChainHead` followed by `Height()` -/
  ChainHead : Except String Int
  StateNetworkVersion : Except String Nat
  /-- Go `SMDealClient.ProposeStorageDeal`, giving `result.ProposalCid` -/
  ProposeStorageDeal : ProposeStorageDealParams → Except String Cid
  /-- Go `StateDealProviderCollateralBounds`, giving `networkCollateral.Min` -/
  StateDealProviderCollateralBounds : Nat → Bool → Except String Int
  WalletSign : Address → Bytes → Except String Bytes
  NewDealStream : PeerID → Except String Unit
  WriteDealProposal : Proposal → Except String Unit
  ReadDealResponse : Except String Response

/-- Go constant `dealStartBufferHours uint64 = 8 * 24`. -/
def dealStartBufferHours : Nat := 8 * 24

/-- The start epoch used by `dealStarter`: the caller's, or when that is
unset (`<= 0`) the chain height plus the start buffer.  Integer division by
a zero block delay panics. -/
def resolveDealStart (env : DealEnv) (params : StartDealParams) : Eff DealErr Int :=
  let dealStart := params.DealStartEpoch
  if dealStart ≤ 0 then do -- unset, or explicitly 'epoch undefined'
    let height ← Eff.call .ChainHead env.ChainHead .chainHeightFailed
    if env.BlockDelaySecs = 0 then Eff.crash
    else
      let blocksPerHour := 60 * 60 / env.BlockDelaySecs
      pure (height + ((dealStartBufferHours * blocksPerHour : Nat) : Int))
  else pure dealStart

/-- The regular flow of `dealStarter` (`if !isStateless { ... }`). -/
def regularFlow (env : DealEnv) (fuel : Nat) (params : StartDealParams) (mi : MinerInfo)
    (md : DlineInfo) (dealStart : Int) (st : Nat) : Eff DealErr Cid := do
  let peerId ← Eff.deref mi.PeerId
  let providerInfo : StorageProviderInfo :=
    { Address := params.Miner, Worker := mi.Worker, SectorSize := mi.SectorSize,
      PeerID := peerId, Addrs := mi.Multiaddrs }
  let endEpoch ← Eff.ofRun (calcDealExpiration fuel params.MinBlocksDuration md dealStart)
  let p : ProposeStorageDealParams :=
    { Addr := params.Wallet, Info := providerInfo, Data := params.Data,
      StartEpoch := dealStart, EndEpoch := endEpoch, Price := params.EpochPrice,
      Collateral := params.ProviderCollateral, Rt := st,
      FastRetrieval := params.FastRetrieval, VerifiedDeal := params.VerifiedDeal }
  Eff.call (.ProposeStorageDeal p) (env.ProposeStorageDeal p) .startDealFailed

/-- The provider collateral of the stateless proposal: the caller's, or when
that is zero the minimum of the network's bounds. -/
def resolveCollateral (env : DealEnv) (params : StartDealParams) : Eff DealErr Int :=
  if params.ProviderCollateral = 0 then
    Eff.call (.StateDealProviderCollateralBounds (env.Padded params.Data.PieceSize)
        params.VerifiedDeal)
      (env.StateDealProviderCollateralBounds (env.Padded params.Data.PieceSize)
        params.VerifiedDeal)
      .collateralBoundsFailed
  else pure params.ProviderCollateral

/-- The validation of the response read from the deal stream (the last
three statements of `dealStarter`). -/
def checkResponse (env : DealEnv) (signed : ClientDealProposal) (resp : Response) :
    Eff DealErr Cid :=
  match env.AsIpld signed with
  | .error e => Eff.fail (.serializeNodeFailed e)
  | .ok dealProposalCid =>
    if ¬ (dealProposalCid = resp.Proposal) then
      Eff.fail (.proposalCidMismatch resp.Proposal dealProposalCid)
    else if resp.State ≠ env.StorageDealWaitingForData then
      Eff.fail (.unexpectedState resp.State resp.Proposal resp.Message)
    else pure resp.Proposal

/-- The stateless flow of `dealStarter` ("stateless flow from here to the end"). -/
def statelessFlow (env : DealEnv) (fuel : Nat) (params : StartDealParams) (walletKey : Address)
    (mi : MinerInfo) (md : DlineInfo) (dealStart : Int) : Eff DealErr Cid := do
  let pieceCid ← Eff.deref params.Data.PieceCid
  let endEpoch ← Eff.ofRun (calcDealExpiration fuel params.MinBlocksDuration md dealStart)
  let collateral ← resolveCollateral env params
  let dealProposal : DealProposal :=
    { PieceCID := pieceCid, PieceSize := env.Padded params.Data.PieceSize,
      Client := walletKey, Provider := params.Miner,
      Label := env.EncodeLabel params.Data.Root,
      StartEpoch := dealStart, EndEpoch := endEpoch,
      StoragePricePerEpoch := 0, ProviderCollateral := collateral,
      ClientCollateral := 0, VerifiedDeal := params.VerifiedDeal }
  match env.Dump dealProposal with
  | .error e => Eff.fail (.serializeProposalFailed e)
  | .ok dealProposalSerialized => do
    let dealProposalSig ← Eff.call (.WalletSign walletKey dealProposalSerialized)
      (env.WalletSign walletKey dealProposalSerialized) .signProposalFailed
    let dealProposalSigned : ClientDealProposal :=
      { Proposal := dealProposal, ClientSignature := dealProposalSig }
    let peerId ← Eff.deref mi.PeerId
    let _dStream ← Eff.call (.NewDealStream peerId) (env.NewDealStream peerId)
      (.openStreamFailed params.Miner peerId)
    let msg : Proposal :=
      { FastRetrieval := true, DealProposal := dealProposalSigned,
        Piece := { TransferType := env.TTManual, Root := params.Data.Root,
                   PieceCid := params.Data.PieceCid, PieceSize := params.Data.PieceSize } }
    let _ ← Eff.call (.WriteDealProposal msg) (env.WriteDealProposal msg) .sendProposalFailed
    let resp ← Eff.call .ReadDealResponse env.ReadDealResponse .readResponseFailed
    checkResponse env dealProposalSigned resp

/-- The opening checks of `dealStarter`: transfer type and price for a
stateless deal, the CARv2 file path for a regular graphsync deal. -/
def checkTransfer (env : DealEnv) (params : StartDealParams) (isStateless : Bool) :
    Eff DealErr Unit :=
  if isStateless then
    if params.Data.TransferType ≠ env.TTManual then
      Eff.fail (.invalidTransferType params.Data.TransferType)
    else if ¬ (params.EpochPrice = 0) then
      Eff.fail .statelessNonZeroPrice
    else pure ()
  else if params.Data.TransferType = env.TTGraphsync then do
    let fc ← Eff.call (.FilestoreCARV2FilePathFor params.Data.Root)
      (env.FilestoreCARV2FilePathFor params.Data.Root) .carPathLookupFailed
    if fc = "" then Eff.fail .noCarPath else pure ()
  else pure ()

/-- The part of `dealStarter` after the sector-size check: the start epoch,
the network version and the seal proof type, then the regular or the
stateless flow. -/
def proposeFlow (env : DealEnv) (fuel : Nat) (params : StartDealParams) (isStateless : Bool)
    (walletKey : Address) (mi : MinerInfo) (md : DlineInfo) : Eff DealErr Cid := do
  let dealStart ← resolveDealStart env params
  let networkVersion ← Eff.call .StateNetworkVersion env.StateNetworkVersion
    .networkVersionFailed
  match env.PreferredSealProofTypeFromWindowPoStType networkVersion mi.WindowPoStProofType with
  | .error e => Eff.fail (.sealProofTypeFailed e)
  | .ok st =>
    -- regular flow
    if ¬ isStateless then regularFlow env fuel params mi md dealStart st
    -- stateless flow from here to the end
    else statelessFlow env fuel params walletKey mi md dealStart

/-- Embedding of `API.dealStarter(ctx, params, isStateless)`; `fuel` bounds
the alignment loop of `calcDealExpiration`.  The result is the outcome and
the trace of collaborator calls, starting from the empty trace. -/
def dealStarter (env : DealEnv) (fuel : Nat) (params : StartDealParams) (isStateless : Bool) :
    Outcome DealErr Cid × List Call :=
  (do
    checkTransfer env params isStateless
    let walletKey ← Eff.call (.StateAccountKey params.Wallet)
      (env.StateAccountKey params.Wallet) (.resolveWalletFailed params.Wallet)
    let exist ← Eff.call (.WalletHas walletKey) (env.WalletHas walletKey)
      (.walletHasFailed params.Wallet)
    if ¬ exist then Eff.fail .addressNotInWallet
    else do
      let mi ← Eff.call (.StateMinerInfo params.Miner) (env.StateMinerInfo params.Miner)
        .minerInfoFailed
      let md ← Eff.call (.StateMinerProvingDeadline params.Miner)
        (env.StateMinerProvingDeadline params.Miner) .deadlineInfoFailed
      if env.Padded params.Data.PieceSize > mi.SectorSize then Eff.fail .dataDoesNotFit
      else proposeFlow env fuel params isStateless walletKey mi md : Eff DealErr Cid) []

/-- Embedding of `API.ClientStartDeal`. -/
def ClientStartDeal (env : DealEnv) (fuel : Nat) (params : StartDealParams) :
    Outcome DealErr Cid × List Call :=
  dealStarter env fuel params false

/-- Embedding of `API.ClientStatelessDeal`. -/
def ClientStatelessDeal (env : DealEnv) (fuel : Nat) (params : StartDealParams) :
    Outcome DealErr Cid × List Call :=
  dealStarter env fuel params true

/-! ## Query dispatcher -/

/-- What the retrieval side depends on outside this file. -/
structure RetrievalEnv where
  /-- Go `RetDiscovery.GetPeers` -/
  GetPeers : Cid → Except String (List RetrievalPeer)
  StateMinerInfo : Address → Except String MinerInfo
  /-- Go `Retrieval.Query` (the query parameters are always `rm.QueryParams{}`) -/
  Query : RetrievalPeer → Cid → Except String QueryResponse
  /-- Go `QueryResponse.PieceRetrievalPrice`, the value it returns when it
  returns: the method adds `UnsealPrice` to the price of the bytes and faults
  on an unset `UnsealPrice` (see `makeRetrievalQuery`) -/
  PieceRetrievalPrice : QueryResponse → Int
  /-- Go `retrievalmarket.NewParamsV1` -/
  NewParamsV1 : Params → Except String Params
  /-- Go `Retrieval.Retrieve`, giving the assigned deal identifier -/
  Retrieve : Cid → Params → Int → RetrievalPeer → Address → Address → Except String Nat
  /-- Go `BlockstoreManager.WriteCarV1` -/
  WriteCarV1 : Cid → String → Except String Unit
  /-- Go `BlockstoreManager.WriteUnixFSFile` -/
  WriteUnixFSFile : Cid → String → Except String Unit

/-- Embedding of `API.makeRetrievalQuery`.  A failed query gives an offer
that carries the error text.  On a response, the composite literal calls
`queryResponse.PieceRetrievalPrice()`, which adds `queryResponse.UnsealPrice`
to the price of the bytes: with `UnsealPrice` unset (a nil `big.Int`) the
addition dereferences nil and the run panics; otherwise the offer is
returned. -/
def makeRetrievalQuery (env : RetrievalEnv) (rp : RetrievalPeer) (payload : Cid)
    (piece : Option Cid) : Eff String QueryOffer := fun tr =>
  let tr1 := tr ++ [Call.Query rp.Address rp.ID payload]
  match env.Query rp payload with
  | .error e =>
    (.ok { Err := e, Miner := rp.Address, MinerPeer := rp,
           Root := Cid.Undef, Piece := none, Size := 0, MinPrice := none,
           UnsealPrice := none, PaymentInterval := 0, PaymentIntervalIncrease := 0 }, tr1)
  | .ok queryResponse =>
    let errStr : String :=
      if queryResponse.Status = QueryResponseAvailable then ""
      else if queryResponse.Status = QueryResponseUnavailable then
        "retrieval query offer was unavailable: " ++ queryResponse.Message
      else if queryResponse.Status = QueryResponseError then
        "retrieval query offer errored: " ++ queryResponse.Message
      else ""
    match queryResponse.UnsealPrice with
    | none => (.panic, tr1)
    | some unsealPrice =>
      (.ok { Root := payload, Piece := piece, Size := queryResponse.Size,
             MinPrice := some (env.PieceRetrievalPrice queryResponse),
             UnsealPrice := some unsealPrice,
             PaymentInterval := queryResponse.MaxPaymentInterval,
             PaymentIntervalIncrease := queryResponse.MaxPaymentIntervalIncrease,
             Miner := queryResponse.PaymentAddress, -- TODO: check
             MinerPeer := rp,
             Err := errStr }, tr1)

/-- Embedding of `API.ClientMinerQueryOffer(ctx, miner, root, piece)`. -/
def ClientMinerQueryOffer (env : RetrievalEnv) (miner : Address) (root : Cid)
    (piece : Option Cid) : Outcome String QueryOffer × List Call :=
  (do
    let mi ← Eff.call (.StateMinerInfo miner) (env.StateMinerInfo miner) id
    let peerId ← Eff.deref mi.PeerId
    makeRetrievalQuery env { Address := miner, ID := peerId, PieceCID := none } root piece
      : Eff String QueryOffer) []

/-! ## Event bridge -/

/-- What one iteration of `readSubscribeEvents` meets at its `select`
statements: the caller's cancellation at the first one (`ctxDone`), or a
source event `e`; when `e` is for the assigned deal the second `select`
either sends it to the output (`sent = true`) or takes the cancellation. -/
inductive Select where
  | ctxDone
  | recv (e : retrievalSubscribeEvent) (sent : Bool)
  deriving DecidableEq, Repr

/-- The event `readSubscribeEvents` builds from a source event. -/
def forwardedEvent (e : retrievalSubscribeEvent) : RetrievalEvent :=
  { Event := e.event, Status := e.state.Status, BytesReceived := e.state.TotalReceived,
    FundsSpent := e.state.FundsSpent, Err := "" }

/-- The `switch state.Status` of `readSubscribeEvents`: `none` when the loop
goes on, otherwise the value returned (`none` inside is the nil error). -/
def classify (state : ClientDealState) : Option (Option String) :=
  match state.Status with
  | .Completed => some none
  | .Rejected => some (some ("Retrieval Proposal Rejected: " ++ state.Message))
  | .Cancelled => some (some ("Retrieval was cancelled externally: " ++ state.Message))
  | .DealNotFound => some (some ("Retrieval Error: " ++ state.Message))
  | .Errored => some (some ("Retrieval Error: " ++ state.Message))
  | _ => none

/-- Embedding of `readSubscribeEvents(ctx, dealID, subscribeEvents, events)`,
driven by what its `select` statements meet.  It returns the error as
`Outcome.err`, nil as `Outcome.ok`; with the schedule used up it is blocked
in the first `select` (`unfinished`). -/
def readSubscribeEvents (dealID : Nat) : List Select → Eff String Unit
  | [] => fun tr => (.unfinished, tr)
  | .ctxDone :: _ => Eff.fail "Retrieval Timed Out"
  | .recv subscribeEvent sent :: rest =>
    if subscribeEvent.state.ID ≠ dealID then
      -- we can't check the deal ID ahead of time
      readSubscribeEvents dealID rest
    else if ¬ sent then Eff.fail "Retrieval Timed Out"
    else fun tr =>
      let tr1 := tr ++ [Call.emit (forwardedEvent subscribeEvent)]
      match classify subscribeEvent.state with
      | some none => (.ok (), tr1)
      | some (some e) => (.err e, tr1)
      | none => readSubscribeEvents dealID rest tr1

/-- The subscription callback of `clientRetrieve`: a source event reaches
`subscribeEvents` only when its payload root is the order's root. -/
def subscriptionFilter (root : Cid) (sched : List Select) : List Select :=
  sched.filter fun s =>
    match s with
    | .ctxDone => true
    | .recv e _ => decide (e.state.PayloadCID = root)

/-- The event bridge: the callback's filter followed by `readSubscribeEvents`. -/
def bridge (root : Cid) (dealID : Nat) (sched : List Select) : Eff String Unit :=
  readSubscribeEvents dealID (subscriptionFilter root sched)

/-- The events sent on the output stream, in order. -/
def emitted (tr : List Call) : List RetrievalEvent :=
  tr.filterMap fun c =>
    match c with
    | .emit e => some e
    | _ => none

/-! ## Retrieval orchestrator -/

/-- The counterparty of a retrieval: the order's, or when that is nil or has
an empty identity the one the chain reports (`*mi.PeerId` panics on nil). -/
def resolveMinerPeer (env : RetrievalEnv) (order : RetrievalOrder) : Eff String RetrievalPeer :=
  let lookup : Eff String RetrievalPeer := do
    let mi ← Eff.call (.StateMinerInfo order.Miner) (env.StateMinerInfo order.Miner) id
    let peerId ← Eff.deref mi.PeerId
    pure { ID := peerId, Address := order.Miner, PieceCID := none }
  match order.MinerPeer with
  | none => lookup
  | some mp => if mp.ID = "" then lookup else pure mp

/-- Run `m`, then call `c` when `m` has returned (with or without error). -/
def thenCall {ε α : Type} (m : Eff ε α) (c : Call) : Eff ε α := fun tr =>
  match m tr with
  | (.ok a, tr1) => (.ok a, tr1 ++ [c])
  | (.err e, tr1) => (.err e, tr1 ++ [c])
  | (.panic, tr1) => (.panic, tr1)
  | (.unfinished, tr1) => (.unfinished, tr1)

/-- Rewrap the error of `m` (Go: `xerrors.Errorf("...: %w", err)`). -/
def wrapErr {α : Type} (pre : String) (m : Eff String α) : Eff String α := fun tr =>
  match m tr with
  | (.err e, tr1) => (.err (pre ++ e), tr1)
  | r => r

/-- The body of `if !fileAlreadyRetrieved { ... }` in `clientRetrieve`, up to
the registration of the deferred `Cleanup`.  An error `e` stands for
`finish(e); return`. -/
def retrievalPhase (env : RetrievalEnv) (order : RetrievalOrder) (sched : List Select) :
    Eff String Unit := do
  let minerPeer ← resolveMinerPeer env order
  match order.Total with
  | none => Eff.fail "cannot make retrieval deal for null total"
  | some total =>
    if order.Size = 0 then Eff.fail "cannot make retrieval deal for zero bytes"
    else
      -- `types.BigDiv` is Euclidean division, as `/` on `Int`
      let ppb := total / (order.Size : Int)
      let args : Params :=
        { PricePerByte := ppb, PaymentInterval := order.PaymentInterval,
          PaymentIntervalIncrease := order.PaymentIntervalIncrease, PieceCID := order.Piece,
          UnsealPrice := order.UnsealPrice }
      match env.NewParamsV1 args with
      | .error e => Eff.fail ("Error in retrieval params: " ++ e)
      | .ok params => do
        -- Subscribe to events before retrieving to avoid losing events.
        let _unsubscribe ← Eff.call .SubscribeToEvents (.ok ()) id
        fun tr =>
          let tr1 := tr ++ [Call.Retrieve order.Root order.Miner minerPeer.ID]
          match env.Retrieve order.Root params total minerPeer order.Client order.Miner with
          | .error e => (.err ("Retrieve failed: " ++ e), tr1 ++ [Call.unsubscribe])
          | .ok dealID =>
            wrapErr "Retrieve: " (thenCall (bridge order.Root dealID sched) .unsubscribe) tr1

/-- The part of `clientRetrieve` after the retrieval phase: nothing when
`ref` is nil, otherwise the CAR file or the UnixFS file is written.  An
error `e` stands for `finish(e)`. -/
def materialize (env : RetrievalEnv) (order : RetrievalOrder) (ref : Option FileRef) :
    Eff String Unit :=
  match ref with
  -- If ref is nil, it only fetches the data into the configured blockstore.
  | none => pure ()
  | some r =>
    if r.IsCAR then
      Eff.call (.WriteCarV1 order.Root r.Path) (env.WriteCarV1 order.Root r.Path) id
    else
      Eff.call (.WriteUnixFSFile order.Root r.Path) (env.WriteUnixFSFile order.Root r.Path) id

/-- The event sent by `finish(e)` for a non-nil `e`. -/
def failureEvent (e : String) : RetrievalEvent :=
  { Err := e, FundsSpent := 0, Event := 0, Status := .New, BytesReceived := 0 }

/-- Embedding of `API.clientRetrieve(ctx, order, ref, events)`.  The result
is whether the goroutine returned and the log of what it did: collaborator
calls, sends on `events` (`emit`, taken to be received by the caller) and
the deferred `Cleanup` and `close(events)`. -/
def clientRetrieve (env : RetrievalEnv) (order : RetrievalOrder) (ref : Option FileRef)
    (sched : List Select) : Run Unit × List Call :=
  let fileAlreadyRetrieved := decide (order.LocalCARV2FilePath ≠ "")
  let phase : Eff String Unit :=
    if ¬ fileAlreadyRetrieved then retrievalPhase env order sched else pure ()
  match phase [] with
  | (.err e, tr) => (.ret (), tr ++ [Call.emit (failureEvent e), Call.close])
  | (.panic, tr) => (.panic, tr ++ [Call.close])
  | (.unfinished, tr) => (.unfinished, tr)
  | (.ok (), tr) =>
    let deferred : List Call :=
      if fileAlreadyRetrieved then [Call.close] else [Call.Cleanup order.Root, Call.close]
    match materialize env order ref tr with
    | (.err e, tr1) => (.ret (), tr1 ++ [Call.emit (failureEvent e)] ++ deferred)
    | (.ok (), tr1) => (.ret (), tr1 ++ deferred)
    | (.panic, tr1) => (.panic, tr1 ++ deferred)
    | (.unfinished, tr1) => (.unfinished, tr1)

/-! ## Notions used to state the properties -/

/-- The trace of `dealStarter` when it arrives at the sector-size check. -/
def traceAtSizeCheck (env : DealEnv) (params : StartDealParams) (isStateless : Bool)
    (walletKey : Address) : List Call :=
  (checkTransfer env params isStateless []).2 ++
    [Call.StateAccountKey params.Wallet, Call.WalletHas walletKey,
      Call.StateMinerInfo params.Miner, Call.StateMinerProvingDeadline params.Miner]

/-- The terminal statuses: completed, rejected, cancelled, not found, errored. -/
def isTerminal (s : DealStatus) : Bool :=
  match s with
  | .Completed | .Rejected | .Cancelled | .DealNotFound | .Errored => true
  | _ => false

/-- A source event is for the retrieval at hand: its payload root is the
order's root and its deal identifier is the assigned one. -/
def isForDeal (root : Cid) (dealID : Nat) (e : retrievalSubscribeEvent) : Bool :=
  decide (e.state.PayloadCID = root) && decide (e.state.ID = dealID)

/-- A list of events up to and including its first event with a terminal
status (the whole list when there is none). -/
def uptoTerminal : List retrievalSubscribeEvent → List retrievalSubscribeEvent
  | [] => []
  | e :: es => if isTerminal e.state.Status then [e] else e :: uptoTerminal es

/-- A schedule without cancellation: every source event is received and,
when it is for the assigned deal, handed to the output. -/
def uncancelled (src : List retrievalSubscribeEvent) : List Select :=
  src.map fun e => Select.recv e true

/-- A step of the schedule that lets `readSubscribeEvents` go on without
forwarding a terminal event: a source event that is not for the assigned
deal, or one that is handed over with a non-terminal status. -/
def beforeCancel (dealID : Nat) : Select → Bool
  | .ctxDone => false
  | .recv e sent => decide (e.state.ID ≠ dealID) || (sent && !isTerminal e.state.Status)

/-- A step of the schedule at which `readSubscribeEvents` takes the caller's
cancellation: while waiting for a source event (`ctxDone`), or while waiting
to hand an event of the assigned deal to the output. -/
def takesCancel (dealID : Nat) : Select → Bool
  | .ctxDone => true
  | .recv e sent => decide (e.state.ID = dealID) && !sent

/-- A step of `clientRetrieve` that belongs to a successful retrieval: a
call that materializes the payload, or the sending of an event with status
Completed. -/
def Call.marksSuccess : Call → Bool
  | .WriteCarV1 _ _ => true
  | .WriteUnixFSFile _ _ => true
  | .emit ev => decide (ev.Status = .Completed)
  | _ => false

/-- The sending of an event that carries an error text. -/
def Call.isErrorEvent : Call → Bool
  | .emit ev => decide (ev.Err ≠ "")
  | _ => false

/-- A call to the deal-execution collaborator that arms the subscription,
issues the retrieval, or releases the subscription. -/
def Call.isSubscription : Call → Bool
  | .SubscribeToEvents => true
  | .Retrieve _ _ _ => true
  | .unsubscribe => true
  | _ => false

/-- A call that materializes the retrieved payload. -/
def Call.isMaterialization : Call → Bool
  | .WriteCarV1 _ _ => true
  | .WriteUnixFSFile _ _ => true
  | _ => false

/-- The events with a non-empty `Err` sent on the output stream, in order. -/
def errorEvents (log : List Call) : List RetrievalEvent :=
  emitted (log.filter Call.isErrorEvent)

/-- The subscribe, retrieve and unsubscribe calls of a log, in order. -/
def subscriptionCalls (log : List Call) : List Call :=
  log.filter Call.isSubscription

/-- A list of log entries that are all forwarded source events. -/
def Forwards (fw : List Call) : Prop :=
  ∀ x ∈ fw, ∃ e, x = Call.emit (forwardedEvent e)

/-! ## Example environments -/

/-- A deal environment in which every collaborator succeeds; the provider
answers with commitment 77 in the state "waiting for data". -/
def scenarioEnv : DealEnv where
  TTManual := "manual"
  TTGraphsync := "graphsync"
  StorageDealWaitingForData := 18
  BlockDelaySecs := 30
  Padded := fun s => s + s / 127
  PreferredSealProofTypeFromWindowPoStType := fun _ t => .ok t
  EncodeLabel := fun _ => "label"
  Dump := fun _ => .ok [1]
  AsIpld := fun _ => .ok 77
  FilestoreCARV2FilePathFor := fun _ => .ok "/car"
  StateAccountKey := fun a => .ok a
  WalletHas := fun _ => .ok true
  StateMinerInfo := fun _ =>
    .ok { Worker := 2, SectorSize := 2048, PeerId := some "peer", Multiaddrs := [],
          WindowPoStProofType := 0 }
  StateMinerProvingDeadline := fun _ => .ok { PeriodStart := 5, WPoStProvingPeriod := 10 }
  ChainHead := .ok 100
  StateNetworkVersion := .ok 13
  ProposeStorageDeal := fun _ => .ok 55
  StateDealProviderCollateralBounds := fun _ _ => .ok 1
  WalletSign := fun _ _ => .ok [9]
  NewDealStream := fun _ => .ok ()
  WriteDealProposal := fun _ => .ok ()
  ReadDealResponse := .ok { State := 18, Message := "", Proposal := 77 }

/-- Parameters of a stateless deal: manual transfer, price 0. -/
def scenarioParams : StartDealParams where
  Data := { TransferType := "manual", Root := 1, PieceCid := some 2, PieceSize := 1016 }
  Wallet := 3
  Miner := 4
  EpochPrice := 0
  MinBlocksDuration := 20
  ProviderCollateral := 0
  DealStartEpoch := 50
  FastRetrieval := true
  VerifiedDeal := false

/-- The message `dealStarter` writes to the deal stream in the scenario. -/
def scenarioMessage : Proposal where
  FastRetrieval := true
  DealProposal :=
    { Proposal :=
        { PieceCID := 2, PieceSize := 1024, Client := 3, Provider := 4, Label := "label",
          StartEpoch := 50, EndEpoch := 84, StoragePricePerEpoch := 0,
          ProviderCollateral := 1, ClientCollateral := 0, VerifiedDeal := false },
      ClientSignature := [9] }
  Piece := { TransferType := "manual", Root := 1, PieceCid := some 2, PieceSize := 1016 }

/-- A deal environment whose miner has 512-byte sectors. -/
def smallSectorEnv : DealEnv :=
  { scenarioEnv with
    StateMinerInfo := fun _ =>
      .ok { Worker := 2, SectorSize := 512, PeerId := some "peer", Multiaddrs := [],
            WindowPoStProofType := 0 } }

/-- A deal environment whose miner has 1024-byte sectors, the padded size of
the scenario's piece. -/
def exactSectorEnv : DealEnv :=
  { scenarioEnv with
    StateMinerInfo := fun _ =>
      .ok { Worker := 2, SectorSize := 1024, PeerId := some "peer", Multiaddrs := [],
            WindowPoStProofType := 0 } }

/-- A source event with the given root, deal identifier and status. -/
def sourceEvent (root : Cid) (dealID : Nat) (status : DealStatus) : retrievalSubscribeEvent :=
  { event := 0,
    state := { PayloadCID := root, ID := dealID, Status := status, TotalReceived := 0,
               FundsSpent := 0, Message := "" } }

/-- What a shared source emits while deal 7 for root 1 runs: its three
events, mixed with events of another root and of another deal, and one
event after the completion. -/
def sourceEvents : List retrievalSubscribeEvent :=
  [sourceEvent 1 7 .Accepted, sourceEvent 2 7 .Completed, sourceEvent 1 8 .Errored,
   sourceEvent 1 7 .FundsNeeded, sourceEvent 1 7 .Completed, sourceEvent 1 7 .Accepted]

/-- A retrieval environment with three candidates for every root: the query
to miner 10 times out, miner 11 answers "unavailable", miner 12 "available";
every retrieval is assigned deal identifier 7. -/
def retrievalEnv : RetrievalEnv where
  GetPeers := fun _ =>
    .ok [{ Address := 10, ID := "a", PieceCID := none },
         { Address := 11, ID := "b", PieceCID := none },
         { Address := 12, ID := "c", PieceCID := none }]
  StateMinerInfo := fun a =>
    .ok { Worker := a, SectorSize := 2048, PeerId := some "peer", Multiaddrs := [],
          WindowPoStProofType := 0 }
  Query := fun rp _ =>
    if rp.Address = 10 then .error "timed out"
    else
      .ok { Status := if rp.Address = 11 then QueryResponseUnavailable
                      else QueryResponseAvailable,
            Size := 100, PaymentAddress := rp.Address, MinPricePerByte := 1,
            MaxPaymentInterval := 0, MaxPaymentIntervalIncrease := 0, Message := "",
            UnsealPrice := some 0 }
  PieceRetrievalPrice := fun qr => qr.MinPricePerByte * (qr.Size : Int) + qr.UnsealPrice.getD 0
  NewParamsV1 := fun p => .ok p
  Retrieve := fun _ _ _ _ _ _ => .ok 7
  WriteCarV1 := fun _ _ => .ok ()
  WriteUnixFSFile := fun _ _ => .ok ()

/-- The same environment, except that the chain has no miner info for miner 11. -/
def staleCandidateEnv : RetrievalEnv :=
  { retrievalEnv with
    StateMinerInfo := fun a =>
      if a = 11 then .error "actor not found"
      else .ok { Worker := a, SectorSize := 2048, PeerId := some "peer", Multiaddrs := [],
                 WindowPoStProofType := 0 } }

/-- An order for root 1 from miner 10, with nothing retrieved locally yet. -/
def scenarioOrder : RetrievalOrder where
  Root := 1
  Piece := none
  Size := 100
  LocalCARV2FilePath := ""
  Total := some 100
  UnsealPrice := some 0
  PaymentInterval := 0
  PaymentIntervalIncrease := 0
  Client := 3
  Miner := 10
  MinerPeer := some { Address := 10, ID := "a", PieceCID := none }

/-- The scenario's environment with the chain's table of proof types: the
window PoSt proof types are 5 to 9 (sectors of 2 KiB to 64 GiB), any other
type is refused, and the seal proof is the one of the same sector size (the
later variant from network version 7 on).  The miner has 2 KiB sectors and
the window PoSt proof type 5. -/
def windowProofEnv : DealEnv :=
  { scenarioEnv with
    PreferredSealProofTypeFromWindowPoStType := fun nv t =>
      if 5 ≤ t ∧ t ≤ 9 then .ok (if nv < 7 then t - 5 else t)
      else .error ("unrecognized window post type: " ++ toString t)
    StateMinerInfo := fun _ =>
      .ok { Worker := 2, SectorSize := 2048, PeerId := some "peer", Multiaddrs := [],
            WindowPoStProofType := 5 } }

/-- The deal environment in which the chain reports a miner without a peer
identity (2 KiB sectors, window PoSt proof type 5). -/
def noPeerIdEnv : DealEnv :=
  { windowProofEnv with
    StateMinerInfo := fun _ =>
      .ok { Worker := 2, SectorSize := 2048, PeerId := none, Multiaddrs := [],
            WindowPoStProofType := 5 } }

/-- The retrieval environment in which the chain reports miners without a
peer identity. -/
def noPeerRetrievalEnv : RetrievalEnv :=
  { retrievalEnv with
    StateMinerInfo := fun a =>
      .ok { Worker := a, SectorSize := 2048, PeerId := none, Multiaddrs := [],
            WindowPoStProofType := 5 } }

/-- The scenario's order without a counterparty peer: `order.MinerPeer` is
nil and the peer is to be looked up on the chain. -/
def unresolvedOrder : RetrievalOrder :=
  { scenarioOrder with MinerPeer := none }

/-- The scenario's deal parameters without a piece identifier. -/
def noPieceCidParams : StartDealParams :=
  { scenarioParams with
    Data := { TransferType := "manual", Root := 1, PieceCid := none, PieceSize := 1016 } }

/-- The scenario's order with zero size, for a payload that is already in a
local CARv2 file. -/
def localOrder : RetrievalOrder :=
  { scenarioOrder with Size := 0, LocalCARV2FilePath := "/local.car" }

/-- The scenario's order with zero size. -/
def zeroSizeOrder : RetrievalOrder :=
  { scenarioOrder with Size := 0 }

/-! ## Lemmas on the expiration calculator -/

theorem tmod_gt_neg (a : Int) {b : Int} (hb : 0 < b) : -b < a.tmod b := by
  rcases Int.le_total 0 a with h | h
  · have := Int.tmod_nonneg b h
    omega
  · have h1 : (-a).tmod b < b := Int.tmod_lt_of_pos (-a) hb
    have h2 : (-a).tmod b = -(a.tmod b) := by
      rw [Int.tmod_def, Int.tmod_def, Int.neg_tdiv]
      simp only [Int.mul_neg]
      omega
    omega

theorem firstCandidate_gt (minExp : Int) (md : DlineInfo)
    (hP : 0 < md.WPoStProvingPeriod) :
    minExp - md.WPoStProvingPeriod < firstCandidate minExp md := by
  have h1 := Int.tmod_lt_of_pos minExp hP
  have h2 := tmod_gt_neg md.PeriodStart hP
  unfold firstCandidate
  omega

/-- With a positive period one iteration of fuel is enough, and the value
returned is the first candidate, plus one period when it was too small. -/
theorem calcDealExpiration_eq (fuel minDuration : Nat) (md : DlineInfo) (startEpoch : Int)
    (hP : 0 < md.WPoStProvingPeriod) :
    calcDealExpiration (fuel + 1) minDuration md startEpoch =
      .ret (if firstCandidate (startEpoch + (minDuration : Int)) md
            < startEpoch + (minDuration : Int)
        then firstCandidate (startEpoch + (minDuration : Int)) md + md.WPoStProvingPeriod
        else firstCandidate (startEpoch + (minDuration : Int)) md) := by
  have hgt := firstCandidate_gt (startEpoch + (minDuration : Int)) md hP
  have hne : md.WPoStProvingPeriod ≠ 0 := by omega
  simp only [calcDealExpiration, hne, if_false]
  by_cases hlt : firstCandidate (startEpoch + (minDuration : Int)) md
      < startEpoch + (minDuration : Int)
  · have h2 : ¬ (firstCandidate (startEpoch + (minDuration : Int)) md + md.WPoStProvingPeriod
        < startEpoch + (minDuration : Int)) := by omega
    cases fuel <;> simp [alignLoop, hlt, h2]
  · simp [alignLoop, hlt]

/-- Between the minimum bound and an epoch at or above it, no smaller epoch
is congruent to that epoch exactly when the two are less than a period apart. -/
theorem no_smaller_aligned_iff (period minExp e : Int) (hP : 0 < period) :
    (∀ e2 : Int, minExp ≤ e2 → e2 < e → ¬ e2 ≡ e [ZMOD period]) ↔ e - minExp < period := by
  constructor
  · intro h
    by_contra hge
    have hge2 : period ≤ e - minExp := by omega
    apply h (e - period) (by omega) (by omega)
    rw [Int.modEq_iff_dvd]
    exact ⟨1, by ring⟩
  · intro h e2 h1 h2 hcong
    rw [Int.modEq_iff_dvd] at hcong
    obtain ⟨k, hk⟩ := hcong
    have hpos : 0 < period * k := by omega
    have hk1 : 1 ≤ k := by
      by_contra hk0
      have : k ≤ 0 := by omega
      have := Int.mul_nonpos_of_nonneg_of_nonpos (Int.le_of_lt hP) this
      omega
    have : period * 1 ≤ period * k := Int.mul_le_mul_of_nonneg_left hk1 (Int.le_of_lt hP)
    omega

theorem alignLoop_ne_panic (period minExp : Int) (fuel : Nat) (exp : Int) :
    alignLoop period minExp fuel exp ≠ .panic := by
  induction fuel generalizing exp with
  | zero =>
    unfold alignLoop
    split <;> simp
  | succ n ih =>
    unfold alignLoop
    split
    · exact ih _
    · simp

theorem append_ne_empty (a b : String) (h : a ≠ "") : a ++ b ≠ "" := by
  intro heq
  apply h
  have h1 := congrArg String.data heq
  rw [String.data_append] at h1
  have h2 : a.data = [] := (List.append_eq_nil.1 h1).1
  exact String.ext h2

/-! ## Lemmas on collaborator traces -/

section
variable {ε α β : Type}

@[simp] theorem Eff.bind_apply (m : Eff ε α) (f : α → Eff ε β) (tr : List Call) :
    (m >>= f) tr = Eff.andThen m f tr := rfl

@[simp] theorem Eff.pure_apply (a : α) (tr : List Call) :
    (pure a : Eff ε α) tr = (.ok a, tr) := rfl

end

theorem checkTransfer_cases (env : DealEnv) (params : StartDealParams) (isStateless : Bool)
    (tr : List Call) :
    (∃ e, checkTransfer env params isStateless tr = (.err e, tr)) ∨
    (∃ e, checkTransfer env params isStateless tr
        = (.err e, tr ++ [.FilestoreCARV2FilePathFor params.Data.Root])) ∨
    checkTransfer env params isStateless tr = (.ok (), tr) ∨
    checkTransfer env params isStateless tr
        = (.ok (), tr ++ [.FilestoreCARV2FilePathFor params.Data.Root]) := by
  unfold checkTransfer
  cases isStateless
  · simp only [Bool.false_eq_true, if_false]
    split
    · simp only [Eff.bind_apply, Eff.andThen, Eff.call]
      cases env.FilestoreCARV2FilePathFor params.Data.Root with
      | error s => simp
      | ok fc =>
        by_cases hfc : fc = ""
        · simp [hfc, Eff.fail]
        · simp [hfc, Eff.pure_apply]
    · simp [Eff.pure_apply]
  · simp only [if_true]
    split
    · simp [Eff.fail]
    · split
      · simp [Eff.fail]
      · simp [Eff.pure_apply]

theorem checkTransfer_stateless (env : DealEnv) (params : StartDealParams) (tr : List Call) :
    (∃ e, checkTransfer env params true tr = (.err e, tr)) ∨
      checkTransfer env params true tr = (.ok (), tr) := by
  unfold checkTransfer
  simp only [if_true]
  split
  · simp [Eff.fail]
  · split
    · simp [Eff.fail]
    · simp [Eff.pure_apply]

theorem checkResponse_trace (env : DealEnv) (signed : ClientDealProposal) (resp : Response)
    (tr : List Call) :
    checkResponse env signed resp tr = ((checkResponse env signed resp []).1, tr) := by
  unfold checkResponse
  cases env.AsIpld signed with
  | error e => simp [Eff.fail]
  | ok c =>
    by_cases h1 : c = resp.Proposal
    · by_cases h2 : resp.State = env.StorageDealWaitingForData
      · simp [h1, h2, Eff.pure_apply]
      · simp [h1, h2, Eff.fail]
    · simp [h1, Eff.fail]

theorem resolveCollateral_trace (env : DealEnv) (params : StartDealParams) (tr : List Call) :
    ∃ l, (∀ p, Call.WriteDealProposal p ∉ l) ∧ Call.ReadDealResponse ∉ l ∧
      ((∃ v, resolveCollateral env params tr = (.ok v, tr ++ l)) ∨
        (∃ e, resolveCollateral env params tr = (.err e, tr ++ l))) := by
  unfold resolveCollateral
  by_cases hc : params.ProviderCollateral = 0
  · refine ⟨[Call.StateDealProviderCollateralBounds (env.Padded params.Data.PieceSize)
      params.VerifiedDeal], by simp, by simp, ?_⟩
    cases env.StateDealProviderCollateralBounds (env.Padded params.Data.PieceSize)
        params.VerifiedDeal with
    | error s => simp [hc, Eff.call]
    | ok v => simp [hc, Eff.call]
  · exact ⟨[], by simp, by simp, Or.inl ⟨params.ProviderCollateral, by simp [hc, Eff.pure_apply]⟩⟩

theorem resolveDealStart_trace (env : DealEnv) (params : StartDealParams) (tr : List Call) :
    ∃ l, (l = [] ∨ l = [Call.ChainHead]) ∧
      ((∃ v, resolveDealStart env params tr = (.ok v, tr ++ l)) ∨
        (∃ e, resolveDealStart env params tr = (.err e, tr ++ l)) ∨
        resolveDealStart env params tr = (.panic, tr ++ l)) := by
  unfold resolveDealStart
  by_cases hc : params.DealStartEpoch ≤ 0
  · refine ⟨[Call.ChainHead], Or.inr rfl, ?_⟩
    cases env.ChainHead with
    | error s => simp [hc, Eff.call, Eff.andThen, Eff.bind_apply]
    | ok v =>
      by_cases hb : env.BlockDelaySecs = 0
      · simp [hc, hb, Eff.call, Eff.andThen, Eff.crash, Eff.bind_apply]
      · simp [hc, hb, Eff.call, Eff.andThen, Eff.bind_apply, Eff.pure_apply]
  · exact ⟨[], Or.inl rfl, Or.inl ⟨params.DealStartEpoch, by simp [hc, Eff.pure_apply]⟩⟩

/-- A stateless flow that got to read the response ends with the outcome of
the response check, and the read is its last call. -/
theorem statelessFlow_read (env : DealEnv) (fuel : Nat) (params : StartDealParams)
    (walletKey : Address) (mi : MinerInfo) (md : DlineInfo) (dealStart : Int)
    (msg : Proposal) (resp : Response) (tr : List Call)
    (hresp : env.ReadDealResponse = .ok resp)
    (h0w : ∀ p, Call.WriteDealProposal p ∉ tr) (h0r : Call.ReadDealResponse ∉ tr) :
    Call.WriteDealProposal msg ∈ (statelessFlow env fuel params walletKey mi md dealStart tr).2 →
    Call.ReadDealResponse ∈ (statelessFlow env fuel params walletKey mi md dealStart tr).2 →
    (statelessFlow env fuel params walletKey mi md dealStart tr).1
        = (checkResponse env msg.DealProposal resp []).1 ∧
      ∃ pre, (statelessFlow env fuel params walletKey mi md dealStart tr).2
          = pre ++ [Call.ReadDealResponse] ∧ Call.ReadDealResponse ∉ pre := by
  unfold statelessFlow
  simp only [Eff.bind_apply]
  rcases hPc : params.Data.PieceCid with _ | pieceCid
  · simp [Eff.andThen, Eff.deref, Eff.crash, h0r]
  rcases hExp : calcDealExpiration fuel params.MinBlocksDuration md dealStart with e | _ | _
  rotate_left
  · simp [Eff.andThen, Eff.deref, Eff.ret, Eff.ofRun, hExp, h0r]
  · simp [Eff.andThen, Eff.deref, Eff.ret, Eff.ofRun, hExp, h0r]
  obtain ⟨l, hlw, hlr, hcol⟩ := resolveCollateral_trace env params tr
  rcases hcol with ⟨v, hcol⟩ | ⟨e2, hcol⟩
  rotate_left
  · simp [Eff.andThen, Eff.deref, Eff.ret, Eff.ofRun, hExp, h0r, hcol, hlr]
  simp only [Eff.bind_apply, Eff.andThen, Eff.deref, Eff.ret, Eff.ofRun, hExp, hcol]
  generalize env.Dump _ = d
  rcases d with s | ser
  · simp [Eff.fail, h0r, hlr]
  rcases hSign : env.WalletSign walletKey ser with s | sig
  · simp [Eff.andThen, Eff.call, hSign, h0r, hlr, Eff.bind_apply]
  rcases hPeer : mi.PeerId with _ | peerId
  · simp [Eff.andThen, Eff.call, Eff.crash, hSign, h0r, hlr, Eff.bind_apply]
  rcases hOpen : env.NewDealStream peerId with s | u
  · simp [Eff.andThen, Eff.call, Eff.ret, hSign, h0r, hlr, hOpen, Eff.bind_apply]
  simp only [Eff.bind_apply, Eff.andThen, Eff.call, hSign, hOpen, Eff.ret]
  generalize env.WriteDealProposal _ = w
  rcases w with s | u
  · simp [h0r, hlr]
  simp only [hresp]
  rw [checkResponse_trace]
  simp only [List.mem_append, List.mem_singleton, List.mem_cons]
  intro hw _
  simp [h0w, hlw] at hw
  subst hw
  refine ⟨rfl, _, rfl, ?_⟩
  simp [h0r, hlr]

/-- A stateless `dealStarter` that wrote `msg` and read `resp` ends with
the outcome of checking `resp` against the proposal in `msg`, and the read
is its last call. -/
theorem dealStarter_stateless_read (env : DealEnv) (fuel : Nat) (params : StartDealParams)
    (msg : Proposal) (resp : Response) (hresp : env.ReadDealResponse = .ok resp) :
    Call.WriteDealProposal msg ∈ (dealStarter env fuel params true).2 →
    Call.ReadDealResponse ∈ (dealStarter env fuel params true).2 →
    (dealStarter env fuel params true).1 = (checkResponse env msg.DealProposal resp []).1 ∧
      ∃ pre, (dealStarter env fuel params true).2 = pre ++ [Call.ReadDealResponse] ∧
        Call.ReadDealResponse ∉ pre := by
  unfold dealStarter
  simp only [Eff.bind_apply]
  rw [Eff.andThen]
  rcases checkTransfer_stateless env params [] with ⟨e, h⟩ | h <;>
    rw [h] <;> simp only []
  · simp
  rcases hKey : env.StateAccountKey params.Wallet with s | wk
  · simp [Eff.andThen, Eff.call, Eff.fail, hKey]
  rcases hHas : env.WalletHas wk with s | b
  · simp [Eff.andThen, Eff.call, Eff.fail, hKey, hHas, Eff.bind_apply]
  rcases b with _ | _
  · simp [Eff.andThen, Eff.call, Eff.fail, hKey, hHas, Eff.bind_apply]
  rcases hMi : env.StateMinerInfo params.Miner with s | mi
  · simp [Eff.andThen, Eff.call, Eff.fail, hKey, hHas, hMi, Eff.bind_apply]
  rcases hMd : env.StateMinerProvingDeadline params.Miner with s | md
  · simp [Eff.andThen, Eff.call, Eff.fail, hKey, hHas, hMi, hMd, Eff.bind_apply]
  by_cases hbig : env.Padded params.Data.PieceSize > mi.SectorSize
  · simp [Eff.andThen, Eff.call, Eff.fail, hKey, hHas, hMi, hMd, hbig, Eff.bind_apply]
  obtain ⟨l, hl, hds⟩ := resolveDealStart_trace env params
    [Call.StateAccountKey params.Wallet, Call.WalletHas wk, Call.StateMinerInfo params.Miner,
      Call.StateMinerProvingDeadline params.Miner]
  have hlr : Call.ReadDealResponse ∉ l := by rcases hl with rfl | rfl <;> simp
  have hlw : ∀ p, Call.WriteDealProposal p ∉ l := by
    intro p
    rcases hl with rfl | rfl <;> simp
  simp only [Eff.andThen, Eff.call, hKey, hHas, hMi, hMd, hbig, Eff.bind_apply,
    List.nil_append, List.cons_append, not_true_eq_false, if_false, proposeFlow]
  rcases hds with ⟨v, hds⟩ | ⟨e, hds⟩ | hds
  rotate_left
  · simp [hds, hlr]
  · simp [hds, hlr]
  simp only [hds]
  rcases hNv : env.StateNetworkVersion with s | nv
  · simp [hlr]
  simp only []
  generalize env.PreferredSealProofTypeFromWindowPoStType _ _ = st
  rcases st with s | st
  · simp [Eff.fail, hlr]
  simp only [Bool.not_eq_true, if_false]
  apply statelessFlow_read _ _ _ _ _ _ _ _ _ _ hresp
  · intro p
    simp [hlw]
  · simp [hlr]

/-! ## Lemmas on the event bridge -/

theorem classify_eq_none_iff (state : ClientDealState) :
    classify state = none ↔ isTerminal state.Status = false := by
  unfold classify isTerminal
  cases state.Status <;> simp

theorem readSubscribeEvents_trace (dealID : Nat) (sched : List Select) (tr : List Call) :
    readSubscribeEvents dealID sched tr =
      ((readSubscribeEvents dealID sched []).1, tr ++ (readSubscribeEvents dealID sched []).2) := by
  induction sched generalizing tr with
  | nil => simp [readSubscribeEvents]
  | cons s rest ih =>
    cases s with
    | ctxDone => simp [readSubscribeEvents, Eff.fail]
    | recv e sent =>
      unfold readSubscribeEvents
      by_cases hid : e.state.ID = dealID
      · cases sent
        · simp [hid, Eff.fail]
        · simp only [hid, ne_eq, not_true_eq_false, if_false, Bool.not_eq_true, List.nil_append]
          rcases hcl : classify e.state with _ | (_ | m)
          · simp only []
            rw [ih (tr ++ [Call.emit (forwardedEvent e)]), ih [Call.emit (forwardedEvent e)]]
            simp
          · simp
          · simp
      · simp only [hid, ne_eq, not_false_eq_true, if_true]
        exact ih tr

theorem readSubscribeEvents_cons_recv (dealID : Nat) (e : retrievalSubscribeEvent)
    (sent : Bool) (rest : List Select) :
    readSubscribeEvents dealID (Select.recv e sent :: rest) =
      if e.state.ID ≠ dealID then readSubscribeEvents dealID rest
      else if ¬ sent then Eff.fail "Retrieval Timed Out"
      else fun tr =>
        match classify e.state with
        | some none => (.ok (), tr ++ [Call.emit (forwardedEvent e)])
        | some (some m) => (.err m, tr ++ [Call.emit (forwardedEvent e)])
        | none => readSubscribeEvents dealID rest (tr ++ [Call.emit (forwardedEvent e)]) := by
  rw [readSubscribeEvents]

theorem subscriptionFilter_cons_recv (root : Cid) (e : retrievalSubscribeEvent) (sent : Bool)
    (rest : List Select) :
    subscriptionFilter root (Select.recv e sent :: rest) =
      if e.state.PayloadCID = root then Select.recv e sent :: subscriptionFilter root rest
      else subscriptionFilter root rest := by
  unfold subscriptionFilter
  by_cases h : e.state.PayloadCID = root <;> simp [List.filter_cons, h]

/-- Without cancellation the bridge's trace is the emission of the events
for the deal, up to and including the first terminal one. -/
theorem bridge_uncancelled_trace (root : Cid) (dealID : Nat)
    (src : List retrievalSubscribeEvent) (tr : List Call) :
    (bridge root dealID (uncancelled src) tr).2 =
      tr ++ (uptoTerminal (src.filter (isForDeal root dealID))).map
        (fun e => Call.emit (forwardedEvent e)) := by
  unfold bridge uncancelled
  induction src generalizing tr with
  | nil => simp [subscriptionFilter, readSubscribeEvents, uptoTerminal]
  | cons e es ih =>
    rw [List.map_cons, subscriptionFilter_cons_recv]
    by_cases hroot : e.state.PayloadCID = root
    · by_cases hid : e.state.ID = dealID
      · have hfor : isForDeal root dealID e = true := by simp [isForDeal, hroot, hid]
        rw [List.filter_cons_of_pos hfor]
        simp only [hroot, if_true]
        unfold readSubscribeEvents
        simp only [hid, ne_eq, not_true_eq_false, if_false, Bool.not_eq_true]
        rcases hcl : classify e.state with _ | (_ | m)
        · have hnt : isTerminal e.state.Status = false := (classify_eq_none_iff _).1 hcl
          simp only [uptoTerminal, hnt, Bool.false_eq_true, if_false]
          rw [ih]
          simp
        · have hnt : isTerminal e.state.Status = true := by
            by_contra h
            have := (classify_eq_none_iff e.state).2 (by simpa using h)
            simp [this] at hcl
          simp [uptoTerminal, hnt]
        · have hnt : isTerminal e.state.Status = true := by
            by_contra h
            have := (classify_eq_none_iff e.state).2 (by simpa using h)
            simp [this] at hcl
          simp [uptoTerminal, hnt]
      · have hfor : ¬ (isForDeal root dealID e = true) := by simp [isForDeal, hid]
        rw [List.filter_cons_of_neg hfor]
        simp only [hroot, if_true]
        unfold readSubscribeEvents
        simp only [hid, ne_eq, not_false_eq_true, if_true]
        exact ih tr
    · have hfor : ¬ (isForDeal root dealID e = true) := by simp [isForDeal, hroot]
      rw [List.filter_cons_of_neg hfor]
      simp only [hroot, if_false]
      exact ih tr

/-- Without cancellation the bridge returns once the source has emitted a
terminal event for the deal. -/
theorem bridge_uncancelled_returns (root : Cid) (dealID : Nat)
    (src : List retrievalSubscribeEvent) (tr : List Call)
    (h : ∃ e ∈ src, isForDeal root dealID e = true ∧ isTerminal e.state.Status = true) :
    (bridge root dealID (uncancelled src) tr).1 = .ok () ∨
      ∃ m, (bridge root dealID (uncancelled src) tr).1 = .err m := by
  unfold bridge uncancelled
  induction src generalizing tr with
  | nil => simp at h
  | cons e es ih =>
    rw [List.map_cons, subscriptionFilter_cons_recv]
    have hrest : (¬ (isForDeal root dealID e = true ∧ isTerminal e.state.Status = true)) →
        ∃ e2 ∈ es, isForDeal root dealID e2 = true ∧ isTerminal e2.state.Status = true := by
      intro hne
      obtain ⟨e2, hmem, h2⟩ := h
      rcases List.mem_cons.1 hmem with rfl | hmem
      · exact absurd h2 hne
      · exact ⟨e2, hmem, h2⟩
    by_cases hroot : e.state.PayloadCID = root
    · simp only [hroot, if_true]
      unfold readSubscribeEvents
      by_cases hid : e.state.ID = dealID
      · simp only [hid, ne_eq, not_true_eq_false, if_false, Bool.not_eq_true]
        rcases hcl : classify e.state with _ | (_ | m)
        · have hnt : isTerminal e.state.Status = false := (classify_eq_none_iff _).1 hcl
          exact ih _ (hrest (by simp [hnt]))
        · simp
        · simp
      · simp only [hid, ne_eq, not_false_eq_true, if_true]
        exact ih _ (hrest (by simp [isForDeal, hid]))
    · simp only [hroot, if_false]
      exact ih _ (hrest (by simp [isForDeal, hroot]))

/-! ## Lemmas on cancellation -/

/-- What `readSubscribeEvents` does on steps that all let it go on: it only
sends events with a non-terminal status. -/
theorem readSubscribeEvents_beforeCancel (dealID : Nat) (pre : List Select) (tr : List Call)
    (hpre : ∀ s ∈ pre, beforeCancel dealID s = true) :
    ∃ l, (readSubscribeEvents dealID pre tr).2 = tr ++ l ∧
      ∀ c ∈ l, ∃ e, c = Call.emit (forwardedEvent e) ∧ isTerminal e.state.Status = false := by
  induction pre generalizing tr with
  | nil => exact ⟨[], by simp [readSubscribeEvents], by simp⟩
  | cons s rest ih =>
    have hrest : ∀ s ∈ rest, beforeCancel dealID s = true :=
      fun s hs => hpre s (List.mem_cons_of_mem _ hs)
    have hs := hpre s (List.mem_cons_self _ _)
    cases s with
    | ctxDone => simp [beforeCancel] at hs
    | recv e sent =>
      rw [readSubscribeEvents_cons_recv]
      by_cases hid : e.state.ID = dealID
      · simp only [beforeCancel, hid, ne_eq, not_true_eq_false, decide_False, Bool.false_or,
          Bool.and_eq_true, Bool.not_eq_true'] at hs
        obtain ⟨hsent, hnt⟩ := hs
        have hcl := (classify_eq_none_iff e.state).2 hnt
        simp only [hid, ne_eq, not_true_eq_false, if_false, hsent, hcl]
        obtain ⟨l, hl, hall⟩ := ih (tr ++ [Call.emit (forwardedEvent e)]) hrest
        refine ⟨Call.emit (forwardedEvent e) :: l, by simp [hl], ?_⟩
        intro c hc
        rcases List.mem_cons.1 hc with rfl | hc
        · exact ⟨e, rfl, hnt⟩
        · exact hall c hc
      · simp only [hid, ne_eq, not_false_eq_true, if_true]
        exact ih tr hrest

/-- When the cancellation is taken after steps that all let the loop go on,
`readSubscribeEvents` returns the time-out error and has done only what it
did on those steps. -/
theorem readSubscribeEvents_cancel (dealID : Nat) (pre : List Select) (c : Select)
    (post : List Select) (tr : List Call)
    (hpre : ∀ s ∈ pre, beforeCancel dealID s = true) (hc : takesCancel dealID c = true) :
    readSubscribeEvents dealID (pre ++ c :: post) tr =
      (.err "Retrieval Timed Out", (readSubscribeEvents dealID pre tr).2) := by
  induction pre generalizing tr with
  | nil =>
    cases c with
    | ctxDone => simp [readSubscribeEvents, Eff.fail]
    | recv e sent =>
      simp only [takesCancel, Bool.and_eq_true, decide_eq_true_eq, Bool.not_eq_true'] at hc
      rw [List.nil_append, readSubscribeEvents_cons_recv]
      simp [hc.1, hc.2, Eff.fail, readSubscribeEvents]
  | cons s rest ih =>
    have hrest : ∀ s ∈ rest, beforeCancel dealID s = true :=
      fun s hs => hpre s (List.mem_cons_of_mem _ hs)
    have hs := hpre s (List.mem_cons_self _ _)
    cases s with
    | ctxDone => simp [beforeCancel] at hs
    | recv e sent =>
      rw [List.cons_append, readSubscribeEvents_cons_recv, readSubscribeEvents_cons_recv]
      by_cases hid : e.state.ID = dealID
      · simp only [beforeCancel, hid, ne_eq, not_true_eq_false, decide_False, Bool.false_or,
          Bool.and_eq_true, Bool.not_eq_true'] at hs
        obtain ⟨hsent, hnt⟩ := hs
        have hcl := (classify_eq_none_iff e.state).2 hnt
        simp only [hid, ne_eq, not_true_eq_false, if_false, hsent, hcl]
        exact ih _ hrest
      · simp only [hid, ne_eq, not_false_eq_true, if_true]
        exact ih tr hrest

theorem subscriptionFilter_append (root : Cid) (a b : List Select) :
    subscriptionFilter root (a ++ b) = subscriptionFilter root a ++ subscriptionFilter root b := by
  simp [subscriptionFilter]

theorem subscriptionFilter_mem (root : Cid) (a : List Select) (s : Select)
    (h : s ∈ subscriptionFilter root a) : s ∈ a := by
  unfold subscriptionFilter at h
  exact (List.mem_filter.1 h).1

/-- The bridge under cancellation: the time-out error, after sending only
events with a non-terminal status. -/
theorem bridge_cancel (root : Cid) (dealID : Nat) (pre : List Select) (c : Select)
    (post : List Select) (tr : List Call)
    (hpre : ∀ s ∈ pre, beforeCancel dealID s = true) (hc : takesCancel dealID c = true)
    (hroot : subscriptionFilter root [c] = [c]) :
    ∃ l, bridge root dealID (pre ++ c :: post) tr = (.err "Retrieval Timed Out", tr ++ l) ∧
      ∀ x ∈ l, ∃ e, x = Call.emit (forwardedEvent e) ∧ isTerminal e.state.Status = false := by
  have hpre2 : ∀ s ∈ subscriptionFilter root pre, beforeCancel dealID s = true :=
    fun s hs => hpre s (subscriptionFilter_mem root pre s hs)
  obtain ⟨l, hl, hall⟩ := readSubscribeEvents_beforeCancel dealID _ tr hpre2
  refine ⟨l, ?_, hall⟩
  unfold bridge
  have hsplit : subscriptionFilter root (pre ++ c :: post) =
      subscriptionFilter root pre ++ c :: subscriptionFilter root post := by
    rw [subscriptionFilter_append, show c :: post = [c] ++ post from rfl,
      subscriptionFilter_append, hroot]
    rfl
  rw [hsplit, readSubscribeEvents_cancel dealID _ c _ tr hpre2 hc, hl]

theorem resolveMinerPeer_trace (env : RetrievalEnv) (order : RetrievalOrder) (tr : List Call) :
    ∃ l, (l = [] ∨ l = [Call.StateMinerInfo order.Miner]) ∧
      ((∃ mp, resolveMinerPeer env order tr = (.ok mp, tr ++ l)) ∨
        (∃ e, resolveMinerPeer env order tr = (.err e, tr ++ l)) ∨
        resolveMinerPeer env order tr = (.panic, tr ++ l)) := by
  have hlookup : ∃ l, (l = [] ∨ l = [Call.StateMinerInfo order.Miner]) ∧
      ((∃ mp, (do
          let mi ← Eff.call (.StateMinerInfo order.Miner) (env.StateMinerInfo order.Miner) id
          let peerId ← Eff.deref mi.PeerId
          pure { ID := peerId, Address := order.Miner, PieceCID := none }
            : Eff String RetrievalPeer) tr = (.ok mp, tr ++ l)) ∨
        (∃ e, (do
          let mi ← Eff.call (.StateMinerInfo order.Miner) (env.StateMinerInfo order.Miner) id
          let peerId ← Eff.deref mi.PeerId
          pure { ID := peerId, Address := order.Miner, PieceCID := none }
            : Eff String RetrievalPeer) tr = (.err e, tr ++ l)) ∨
        (do
          let mi ← Eff.call (.StateMinerInfo order.Miner) (env.StateMinerInfo order.Miner) id
          let peerId ← Eff.deref mi.PeerId
          pure { ID := peerId, Address := order.Miner, PieceCID := none }
            : Eff String RetrievalPeer) tr = (.panic, tr ++ l)) := by
    refine ⟨[Call.StateMinerInfo order.Miner], Or.inr rfl, ?_⟩
    rcases hMi : env.StateMinerInfo order.Miner with s | mi
    · simp [Eff.andThen, Eff.call, hMi]
    · rcases hP : mi.PeerId with _ | pid
      · simp [Eff.andThen, Eff.call, Eff.deref, Eff.crash, hMi, hP]
      · simp [Eff.andThen, Eff.call, Eff.deref, Eff.ret, hMi, hP]
  unfold resolveMinerPeer
  rcases hmp : order.MinerPeer with _ | mp
  · exact hlookup
  · by_cases hid : mp.ID = ""
    · simp only [hid, if_true]
      exact hlookup
    · exact ⟨[], Or.inl rfl, Or.inl ⟨mp, by simp [hid]⟩⟩

/-- Under cancellation the retrieval phase does not succeed, and nothing it
does marks a success. -/
theorem retrievalPhase_cancel (env : RetrievalEnv) (order : RetrievalOrder) (dealID : Nat)
    (pre : List Select) (c : Select) (post : List Select)
    (hRet : ∀ r p t mp cl m d, env.Retrieve r p t mp cl m = .ok d → d = dealID)
    (hpre : ∀ s ∈ pre, beforeCancel dealID s = true) (hc : takesCancel dealID c = true)
    (hroot : subscriptionFilter order.Root [c] = [c]) :
    ∃ o l, retrievalPhase env order (pre ++ c :: post) [] = (o, l) ∧ o ≠ .ok () ∧
      ∀ x ∈ l, x.marksSuccess = false := by
  unfold retrievalPhase
  simp only [Eff.bind_apply]
  rw [Eff.andThen]
  obtain ⟨l0, hl0, hmp⟩ := resolveMinerPeer_trace env order []
  have hq0 : ∀ x ∈ l0, x.marksSuccess = false := by
    rcases hl0 with rfl | rfl <;> simp [Call.marksSuccess]
  rcases hmp with ⟨mp, hmp⟩ | ⟨e, hmp⟩ | hmp
  rotate_left
  · exact ⟨_, _, by rw [hmp], by simp, by simpa using hq0⟩
  · exact ⟨_, _, by rw [hmp], by simp, by simpa using hq0⟩
  rw [hmp]
  simp only [List.nil_append]
  rcases hT : order.Total with _ | total
  · exact ⟨_, _, rfl, by simp, hq0⟩
  simp only []
  by_cases hsz : order.Size = 0
  · simp only [hsz, if_true]
    exact ⟨_, _, rfl, by simp, hq0⟩
  simp only [hsz, if_false]
  generalize env.NewParamsV1 _ = np
  rcases np with s | params
  · exact ⟨_, _, rfl, by simp, hq0⟩
  simp only [Eff.bind_apply, Eff.andThen, Eff.call, id]
  rcases hR : env.Retrieve order.Root params total mp order.Client order.Miner with s | d
  · refine ⟨_, _, rfl, by simp, ?_⟩
    simp only [List.forall_mem_append, List.forall_mem_singleton, List.forall_mem_cons]
    exact ⟨⟨⟨hq0, rfl⟩, rfl⟩, rfl⟩
  have hd : d = dealID := hRet _ _ _ _ _ _ _ hR
  subst hd
  obtain ⟨l, hb, hall⟩ := bridge_cancel order.Root d pre c post
    (l0 ++ [Call.SubscribeToEvents] ++ [Call.Retrieve order.Root order.Miner mp.ID]) hpre hc hroot
  have hql : ∀ x ∈ l, x.marksSuccess = false := by
    intro x hx
    obtain ⟨e, rfl, hnt⟩ := hall x hx
    simp only [Call.marksSuccess, forwardedEvent, decide_eq_false_iff_not]
    intro hcomp
    simp [hcomp, isTerminal] at hnt
  simp only [wrapErr, thenCall, hb]
  refine ⟨_, _, rfl, by simp, ?_⟩
  simp only [List.forall_mem_append, List.forall_mem_singleton, List.forall_mem_cons]
  exact ⟨⟨⟨⟨hq0, rfl⟩, rfl⟩, hql⟩, rfl⟩

/-! ## Lemmas on the query dispatcher -/

/-- A response with no unseal price makes `makeRetrievalQuery` panic, after
the query. -/
theorem makeRetrievalQuery_unset_unseal_price (env : RetrievalEnv) (rp : RetrievalPeer)
    (payload : Cid) (piece : Option Cid) (tr : List Call) (qr : QueryResponse)
    (h : env.Query rp payload = .ok qr) (hu : qr.UnsealPrice = none) :
    makeRetrievalQuery env rp payload piece tr
      = (.panic, tr ++ [Call.Query rp.Address rp.ID payload]) := by
  unfold makeRetrievalQuery
  simp only [h, hu]

theorem readSubscribeEvents_forwards (dealID : Nat) (sched : List Select) (tr : List Call) :
    ∃ fw, Forwards fw ∧
      (readSubscribeEvents dealID sched tr = (.ok (), tr ++ fw) ∨
        (∃ m, readSubscribeEvents dealID sched tr = (.err m, tr ++ fw)) ∨
        readSubscribeEvents dealID sched tr = (.unfinished, tr ++ fw)) := by
  induction sched generalizing tr with
  | nil => exact ⟨[], by simp [Forwards], Or.inr (Or.inr (by simp [readSubscribeEvents]))⟩
  | cons s rest ih =>
    cases s with
    | ctxDone =>
      exact ⟨[], by simp [Forwards],
        Or.inr (Or.inl ⟨"Retrieval Timed Out", by simp [readSubscribeEvents, Eff.fail]⟩)⟩
    | recv e sent =>
      rw [readSubscribeEvents_cons_recv]
      by_cases hid : e.state.ID = dealID
      · cases sent
        · exact ⟨[], by simp [Forwards],
            Or.inr (Or.inl ⟨"Retrieval Timed Out", by simp [hid, Eff.fail]⟩)⟩
        · simp only [hid, ne_eq, not_true_eq_false, if_false, Bool.not_eq_true]
          have hone : Forwards [Call.emit (forwardedEvent e)] := by
            intro x hx
            exact ⟨e, by simpa using hx⟩
          rcases hcl : classify e.state with _ | (_ | m)
          · obtain ⟨fw, hfw, hrun⟩ := ih (tr ++ [Call.emit (forwardedEvent e)])
            refine ⟨Call.emit (forwardedEvent e) :: fw, ?_, ?_⟩
            · intro x hx
              rcases List.mem_cons.1 hx with rfl | hx
              · exact ⟨e, rfl⟩
              · exact hfw x hx
            · simpa using hrun
          · exact ⟨_, hone, Or.inl rfl⟩
          · exact ⟨_, hone, Or.inr (Or.inl ⟨m, rfl⟩)⟩
      · simp only [hid, ne_eq, not_false_eq_true, if_true]
        exact ih tr

theorem Forwards.filter_isErrorEvent {fw : List Call} (h : Forwards fw) :
    fw.filter Call.isErrorEvent = [] := by
  rw [List.filter_eq_nil_iff]
  intro x hx
  obtain ⟨e, rfl⟩ := h x hx
  simp [Call.isErrorEvent, forwardedEvent]

theorem Forwards.filter_isSubscription {fw : List Call} (h : Forwards fw) :
    fw.filter Call.isSubscription = [] := by
  rw [List.filter_eq_nil_iff]
  intro x hx
  obtain ⟨e, rfl⟩ := h x hx
  simp [Call.isSubscription]

theorem Forwards.filter_isMaterialization {fw : List Call} (h : Forwards fw) :
    fw.filter Call.isMaterialization = [] := by
  rw [List.filter_eq_nil_iff]
  intro x hx
  obtain ⟨e, rfl⟩ := h x hx
  simp [Call.isMaterialization]

theorem resolveMinerPeer_err (env : RetrievalEnv) (order : RetrievalOrder) (tr tr2 : List Call)
    (e : String) (h : resolveMinerPeer env order tr = (.err e, tr2)) :
    env.StateMinerInfo order.Miner = .error e := by
  have hlookup : ∀ r : Outcome String RetrievalPeer × List Call,
      (do
        let mi ← Eff.call (.StateMinerInfo order.Miner) (env.StateMinerInfo order.Miner) id
        let peerId ← Eff.deref mi.PeerId
        pure { ID := peerId, Address := order.Miner, PieceCID := none }
          : Eff String RetrievalPeer) tr = r → r = (.err e, tr2) →
      env.StateMinerInfo order.Miner = .error e := by
    intro r hr hre
    subst hr
    rcases hMi : env.StateMinerInfo order.Miner with s | mi
    · simp [Eff.andThen, Eff.call, hMi] at hre
      rw [hre.1]
    · rcases hP : mi.PeerId with _ | pid
      · simp [Eff.andThen, Eff.call, Eff.deref, Eff.crash, hMi, hP] at hre
      · simp [Eff.andThen, Eff.call, Eff.deref, Eff.ret, hMi, hP] at hre
  unfold resolveMinerPeer at h
  rcases hmp : order.MinerPeer with _ | mp
  · rw [hmp] at h
    exact hlookup _ rfl h
  · rw [hmp] at h
    by_cases hid : mp.ID = ""
    · simp only [hid, if_true] at h
      exact hlookup _ rfl h
    · simp [hid] at h

/-- The runs of the retrieval phase: a failure or a panic before the
subscription, a failed `Retrieve`, or a bridge that ended with an error,
ended with success, or is still waiting. -/
theorem retrievalPhase_shape (env : RetrievalEnv) (order : RetrievalOrder)
    (sched : List Select) :
    ∃ (l0 fw : List Call) (peer : PeerID),
      (l0 = [] ∨ l0 = [Call.StateMinerInfo order.Miner]) ∧ Forwards fw ∧
      ((∃ e, retrievalPhase env order sched [] = (.err e, l0) ∧
          (e ≠ "" ∨ env.StateMinerInfo order.Miner = .error "")) ∨
        retrievalPhase env order sched [] = (.panic, l0) ∨
        (∃ s, retrievalPhase env order sched [] =
          (.err ("Retrieve failed: " ++ s),
            l0 ++ [Call.SubscribeToEvents, Call.Retrieve order.Root order.Miner peer,
              Call.unsubscribe])) ∨
        (∃ m, retrievalPhase env order sched [] =
          (.err ("Retrieve: " ++ m),
            l0 ++ [Call.SubscribeToEvents, Call.Retrieve order.Root order.Miner peer] ++ fw
              ++ [Call.unsubscribe])) ∨
        retrievalPhase env order sched [] =
          (.ok (),
            l0 ++ [Call.SubscribeToEvents, Call.Retrieve order.Root order.Miner peer] ++ fw
              ++ [Call.unsubscribe]) ∨
        retrievalPhase env order sched [] =
          (.unfinished,
            l0 ++ [Call.SubscribeToEvents, Call.Retrieve order.Root order.Miner peer]
              ++ fw)) := by
  obtain ⟨l0, hl0, hmp⟩ := resolveMinerPeer_trace env order []
  simp only [List.nil_append] at hmp
  have hfw0 : Forwards [] := by simp [Forwards]
  unfold retrievalPhase
  simp only [Eff.bind_apply]
  rw [Eff.andThen]
  rcases hmp with ⟨mp, hmp⟩ | ⟨e, hmp⟩ | hmp
  rotate_left
  · refine ⟨l0, [], "", hl0, hfw0, Or.inl ⟨e, by rw [hmp], ?_⟩⟩
    have hlook := resolveMinerPeer_err env order [] l0 e hmp
    by_cases he : e = ""
    · exact Or.inr (by rw [hlook, he])
    · exact Or.inl he
  · exact ⟨l0, [], "", hl0, hfw0, Or.inr (Or.inl (by rw [hmp]))⟩
  rw [hmp]
  simp only []
  rcases hT : order.Total with _ | total
  · exact ⟨l0, [], "", hl0, hfw0, Or.inl ⟨_, rfl, Or.inl (by decide)⟩⟩
  simp only []
  by_cases hsz : order.Size = 0
  · simp only [hsz, if_true]
    exact ⟨l0, [], "", hl0, hfw0, Or.inl ⟨_, rfl, Or.inl (by decide)⟩⟩
  simp only [hsz, if_false]
  generalize env.NewParamsV1 _ = np
  rcases np with s | params
  · exact ⟨l0, [], "", hl0, hfw0,
      Or.inl ⟨_, rfl, Or.inl (append_ne_empty _ _ (by decide))⟩⟩
  simp only [Eff.bind_apply, Eff.andThen, Eff.call, id]
  rcases hR : env.Retrieve order.Root params total mp order.Client order.Miner with s | d
  · exact ⟨l0, [], mp.ID, hl0, hfw0, Or.inr (Or.inr (Or.inl ⟨s, by simp⟩))⟩
  simp only [wrapErr, thenCall, bridge]
  obtain ⟨fw, hfw, hrun⟩ := readSubscribeEvents_forwards d (subscriptionFilter order.Root sched)
    (l0 ++ [Call.SubscribeToEvents, Call.Retrieve order.Root order.Miner mp.ID])
  simp only [List.append_assoc, List.cons_append, List.nil_append] at hrun ⊢
  refine ⟨l0, fw, mp.ID, hl0, hfw, ?_⟩
  rcases hrun with hrun | ⟨m, hrun⟩ | hrun
  · exact Or.inr (Or.inr (Or.inr (Or.inr (Or.inl (by simp [hrun])))))
  · exact Or.inr (Or.inr (Or.inr (Or.inl ⟨m, by simp [hrun]⟩)))
  · exact Or.inr (Or.inr (Or.inr (Or.inr (Or.inr (by simp [hrun])))))

theorem lookup_filters (l0 : List Call) (miner : Address)
    (h : l0 = [] ∨ l0 = [Call.StateMinerInfo miner]) :
    l0.filter Call.isSubscription = [] ∧ l0.filter Call.isErrorEvent = [] ∧
      l0.filter Call.isMaterialization = [] ∧ emitted l0 = [] := by
  rcases h with rfl | rfl <;> simp [Call.isSubscription, Call.isErrorEvent,
    Call.isMaterialization, emitted]

/-- The runs of the materialization: at most one write call, with or
without an error. -/
theorem materialize_shape (env : RetrievalEnv) (order : RetrievalOrder) (ref : Option FileRef)
    (tr : List Call) :
    ∃ mt, mt.filter Call.isSubscription = [] ∧ mt.filter Call.isErrorEvent = [] ∧
      (materialize env order ref tr = (.ok (), tr ++ mt) ∨
        ∃ e, materialize env order ref tr = (.err e, tr ++ mt)) := by
  unfold materialize
  rcases ref with _ | r
  · exact ⟨[], rfl, rfl, Or.inl (by simp)⟩
  · by_cases hcar : r.IsCAR = true
    · simp only [hcar, if_true]
      refine ⟨[Call.WriteCarV1 order.Root r.Path], rfl, rfl, ?_⟩
      cases env.WriteCarV1 order.Root r.Path with
      | error s => exact Or.inr ⟨s, by simp [Eff.call]⟩
      | ok u => exact Or.inl (by simp [Eff.call])
    · simp only [hcar, Bool.false_eq_true, if_false]
      refine ⟨[Call.WriteUnixFSFile order.Root r.Path], rfl, rfl, ?_⟩
      cases env.WriteUnixFSFile order.Root r.Path with
      | error s => exact Or.inr ⟨s, by simp [Eff.call]⟩
      | ok u => exact Or.inl (by simp [Eff.call])

theorem clientRetrieve_local (env : RetrievalEnv) (order : RetrievalOrder)
    (ref : Option FileRef) (sched : List Select) (hlocal : order.LocalCARV2FilePath ≠ "") :
    clientRetrieve env order ref sched =
      match materialize env order ref [] with
      | (.err e, tr1) => (.ret (), tr1 ++ Call.emit (failureEvent e) :: [Call.close])
      | (.ok (), tr1) => (.ret (), tr1 ++ [Call.close])
      | (.panic, tr1) => (.panic, tr1 ++ [Call.close])
      | (.unfinished, tr1) => (.unfinished, tr1) := by
  unfold clientRetrieve
  simp [hlocal]

theorem clientRetrieve_remote (env : RetrievalEnv) (order : RetrievalOrder)
    (ref : Option FileRef) (sched : List Select) (hlocal : order.LocalCARV2FilePath = "") :
    clientRetrieve env order ref sched =
      match retrievalPhase env order sched [] with
      | (.err e, tr) => (.ret (), tr ++ [Call.emit (failureEvent e), Call.close])
      | (.panic, tr) => (.panic, tr ++ [Call.close])
      | (.unfinished, tr) => (.unfinished, tr)
      | (.ok (), tr) =>
        match materialize env order ref tr with
        | (.err e, tr1) =>
          (.ret (), tr1 ++ Call.emit (failureEvent e) :: [Call.Cleanup order.Root, Call.close])
        | (.ok (), tr1) => (.ret (), tr1 ++ [Call.Cleanup order.Root, Call.close])
        | (.panic, tr1) => (.panic, tr1 ++ [Call.Cleanup order.Root, Call.close])
        | (.unfinished, tr1) => (.unfinished, tr1) := by
  unfold clientRetrieve
  simp [hlocal]


theorem errorEvents_failure (pre post : List Call) (e : String)
    (hpre : pre.filter Call.isErrorEvent = []) (hpost : post.filter Call.isErrorEvent = []) :
    errorEvents (pre ++ Call.emit (failureEvent e) :: post) =
      if e = "" then [] else [failureEvent e] := by
  unfold errorEvents
  by_cases he : e = ""
  · simp [List.filter_append, List.filter_cons, hpre, hpost, Call.isErrorEvent, failureEvent,
      he, emitted]
  · simp [List.filter_append, List.filter_cons, hpre, hpost, Call.isErrorEvent, failureEvent,
      he, emitted]

theorem errorEvents_none (l : List Call) (h : l.filter Call.isErrorEvent = []) :
    errorEvents l = [] := by
  unfold errorEvents
  rw [h]
  rfl

/-- The log of a run with a failure event `e` at its end, followed by the
deferred calls `post`: either no event carries an error text, or exactly
that one does. -/
theorem failure_last (pre post : List Call) (e : String) (root : Cid)
    (hpre : pre.filter Call.isErrorEvent = [])
    (hpost : post = [Call.close] ∨ post = [Call.Cleanup root, Call.close]) :
    errorEvents (pre ++ Call.emit (failureEvent e) :: post) = [] ∨
      ∃ ev pre2, ev.Err ≠ "" ∧
        errorEvents (pre ++ Call.emit (failureEvent e) :: post) = [ev] ∧
        (pre ++ Call.emit (failureEvent e) :: post = pre2 ++ [Call.emit ev, Call.close] ∨
          pre ++ Call.emit (failureEvent e) :: post
            = pre2 ++ [Call.emit ev, Call.Cleanup root, Call.close]) := by
  have hpostf : post.filter Call.isErrorEvent = [] := by
    rcases hpost with rfl | rfl <;> simp [Call.isErrorEvent]
  rw [errorEvents_failure pre post e hpre hpostf]
  by_cases he : e = ""
  · exact Or.inl (by simp [he])
  · refine Or.inr ⟨failureEvent e, pre, by simpa [failureEvent] using he, by simp [he], ?_⟩
    rcases hpost with rfl | rfl
    · exact Or.inl rfl
    · exact Or.inr rfl

theorem no_materialization (l : List Call) (h : l.filter Call.isMaterialization = []) :
    (∀ root path, Call.WriteCarV1 root path ∉ l) ∧
      (∀ root path, Call.WriteUnixFSFile root path ∉ l) := by
  rw [List.filter_eq_nil_iff] at h
  constructor
  · intro root path hmem
    exact h _ hmem rfl
  · intro root path hmem
    exact h _ hmem rfl

/-- A failed retrieval phase ends the run with the failure event and the
close, and nothing in the log materializes the payload. -/
theorem failed_phase_log (tr : List Call) (e : String) (he : e ≠ "")
    (hte : tr.filter Call.isErrorEvent = []) (htm : tr.filter Call.isMaterialization = []) :
    errorEvents (tr ++ [Call.emit (failureEvent e), Call.close]) = [failureEvent e] ∧
      (∀ root path,
        Call.WriteCarV1 root path ∉ tr ++ [Call.emit (failureEvent e), Call.close]) ∧
      (∀ root path,
        Call.WriteUnixFSFile root path ∉ tr ++ [Call.emit (failureEvent e), Call.close]) := by
  refine ⟨?_, no_materialization _ ?_⟩
  · rw [errorEvents_failure tr [Call.close] e hte (by simp [Call.isErrorEvent])]
    simp [he]
  · simp [List.filter_append, htm, Call.isMaterialization]

/-- With a zero size or a null total the retrieval phase ends before the
subscription: with the validation error when the counterparty is resolved,
otherwise with the failure of the resolution. -/
theorem retrievalPhase_invalid (env : RetrievalEnv) (order : RetrievalOrder)
    (sched : List Select) (hbad : order.Size = 0 ∨ order.Total = none) :
    ∃ l0, (l0 = [] ∨ l0 = [Call.StateMinerInfo order.Miner]) ∧
      ((∃ e, retrievalPhase env order sched [] = (.err e, l0)) ∨
        retrievalPhase env order sched [] = (.panic, l0)) ∧
      (∀ mp, (resolveMinerPeer env order []).1 = .ok mp →
        ∃ msg, (msg = "cannot make retrieval deal for null total" ∨
            msg = "cannot make retrieval deal for zero bytes") ∧
          retrievalPhase env order sched [] = (.err msg, (resolveMinerPeer env order []).2)) := by
  obtain ⟨l0, hl0, hmp⟩ := resolveMinerPeer_trace env order []
  simp only [List.nil_append] at hmp
  refine ⟨l0, hl0, ?_⟩
  unfold retrievalPhase
  simp only [Eff.bind_apply]
  rw [Eff.andThen]
  rcases hmp with ⟨mp, hmp⟩ | ⟨e, hmp⟩ | hmp <;> rw [hmp] <;> simp only []
  · rcases hT : order.Total with _ | total
    · exact ⟨Or.inl ⟨_, rfl⟩, fun _ _ => ⟨_, Or.inl rfl, rfl⟩⟩
    · have hsz : order.Size = 0 := by
        rcases hbad with h | h
        · exact h
        · rw [hT] at h
          exact absurd h (by simp)
      simp only [hsz, if_true]
      exact ⟨Or.inl ⟨_, rfl⟩, fun _ _ => ⟨_, Or.inr rfl, rfl⟩⟩
  · exact ⟨Or.inl ⟨_, rfl⟩, fun mp h => by simp at h⟩
  · exact ⟨Or.inr trivial, fun mp h => by simp at h⟩

/-! ## Theorems on the expiration calculator -/

/-- C1: with a positive proving period `calcDealExpiration` returns an epoch
`e` with `e - startEpoch >= minDuration` (one iteration of loop fuel is
always enough). -/
theorem calcDealExpiration_min_duration (fuel minDuration : Nat) (md : DlineInfo)
    (startEpoch : Int) (hP : 0 < md.WPoStProvingPeriod) :
    ∃ e, calcDealExpiration (fuel + 1) minDuration md startEpoch = .ret e ∧
      e - startEpoch ≥ (minDuration : Int) := by
  have hgt := firstCandidate_gt (startEpoch + (minDuration : Int)) md hP
  refine ⟨_, calcDealExpiration_eq fuel minDuration md startEpoch hP, ?_⟩
  split <;> omega

theorem calcDealExpiration_min_duration_witness :
    ∃ e, calcDealExpiration (0 + 1) 5 { PeriodStart := -3, WPoStProvingPeriod := 10 } 7
        = .ret e ∧ e - 7 ≥ ((5 : Nat) : Int) :=
  calcDealExpiration_min_duration 0 5 { PeriodStart := -3, WPoStProvingPeriod := 10 } 7
    (by decide)

/-- C2, as stated, fails: with period 10 and phase 0 the epoch returned for
a zero duration from epoch 0 is 9, in exact and in `int64` arithmetic alike,
which is not congruent to 0 modulo 10. -/
theorem calcDealExpiration_not_congruent_to_phase :
    calcDealExpiration 1 0 { PeriodStart := 0, WPoStProvingPeriod := 10 } 0 = .ret 9 ∧
      ¬ (9 : Int) ≡ 0 [ZMOD 10] ∧
      calcDealExpiration64 1 0 { PeriodStart := 0, WPoStProvingPeriod := 10 } 0 = .ret 9 := by
  refine ⟨by decide, by decide, by decide⟩

/-- Over exact integers and with a positive proving period the epoch
returned is congruent to `PeriodStart - 1` modulo the period: it is the last
epoch of a proving period, one before the period boundary. -/
theorem calcDealExpiration_congruent (fuel minDuration : Nat) (md : DlineInfo)
    (startEpoch : Int) (hP : 0 < md.WPoStProvingPeriod) :
    ∃ e, calcDealExpiration (fuel + 1) minDuration md startEpoch = .ret e ∧
      e ≡ md.PeriodStart - 1 [ZMOD md.WPoStProvingPeriod] := by
  refine ⟨_, calcDealExpiration_eq fuel minDuration md startEpoch hP, ?_⟩
  have h1 := Int.tmod_def (startEpoch + (minDuration : Int)) md.WPoStProvingPeriod
  have h2 := Int.tmod_def md.PeriodStart md.WPoStProvingPeriod
  rw [Int.modEq_iff_dvd]
  split
  · refine ⟨(md.PeriodStart.tdiv md.WPoStProvingPeriod)
      - (startEpoch + (minDuration : Int)).tdiv md.WPoStProvingPeriod - 2, ?_⟩
    unfold firstCandidate
    rw [h1, h2]
    ring
  · refine ⟨(md.PeriodStart.tdiv md.WPoStProvingPeriod)
      - (startEpoch + (minDuration : Int)).tdiv md.WPoStProvingPeriod - 1, ?_⟩
    unfold firstCandidate
    rw [h1, h2]
    ring

/-- C3, as stated, fails: with period 10, phase 5, zero duration and start
epoch 0 the epoch returned is 14, in exact and in `int64` arithmetic alike,
although epoch 4 is not below the minimum bound 0, is below 14 and is
congruent to 14 modulo 10; and 14 - 0 is not below the period. -/
theorem calcDealExpiration_not_smallest :
    calcDealExpiration 1 0 { PeriodStart := 5, WPoStProvingPeriod := 10 } 0 = .ret 14 ∧
      ((0 : Int) + ((0 : Nat) : Int) ≤ 4 ∧ (4 : Int) < 14 ∧ (4 : Int) ≡ 14 [ZMOD 10]) ∧
      ¬ ((14 : Int) - (0 + ((0 : Nat) : Int)) < 10) ∧
      calcDealExpiration64 1 0 { PeriodStart := 5, WPoStProvingPeriod := 10 } 0 = .ret 14 := by
  refine ⟨by decide, ⟨by decide, by decide, by decide⟩, by decide, by decide⟩

/-- Over exact integers and with a positive proving period the epoch
returned is not below the minimum bound and exceeds it by at most three
periods less three epochs; it is the smallest epoch of its residue class not
below the bound (equivalently, less than one period above the bound) exactly
when `PeriodStart % P <= minExp % P`, with Go's truncated remainder. -/
theorem calcDealExpiration_alignment_gap (fuel minDuration : Nat) (md : DlineInfo)
    (startEpoch : Int) (hP : 0 < md.WPoStProvingPeriod) :
    ∃ e, calcDealExpiration (fuel + 1) minDuration md startEpoch = .ret e ∧
      startEpoch + (minDuration : Int) ≤ e ∧
      e - (startEpoch + (minDuration : Int)) ≤ 3 * md.WPoStProvingPeriod - 3 ∧
      (e - (startEpoch + (minDuration : Int)) < md.WPoStProvingPeriod ↔
        md.PeriodStart.tmod md.WPoStProvingPeriod
          ≤ (startEpoch + (minDuration : Int)).tmod md.WPoStProvingPeriod) ∧
      ((∀ e2 : Int, startEpoch + (minDuration : Int) ≤ e2 → e2 < e →
          ¬ e2 ≡ e [ZMOD md.WPoStProvingPeriod]) ↔
        md.PeriodStart.tmod md.WPoStProvingPeriod
          ≤ (startEpoch + (minDuration : Int)).tmod md.WPoStProvingPeriod) := by
  have hgt := firstCandidate_gt (startEpoch + (minDuration : Int)) md hP
  have h1 := Int.tmod_lt_of_pos (startEpoch + (minDuration : Int)) hP
  have h2 := tmod_gt_neg md.PeriodStart hP
  have h3 := Int.tmod_lt_of_pos md.PeriodStart hP
  have h4 := tmod_gt_neg (startEpoch + (minDuration : Int)) hP
  have hfc : firstCandidate (startEpoch + (minDuration : Int)) md
      = (startEpoch + (minDuration : Int)) + md.WPoStProvingPeriod
        - ((startEpoch + (minDuration : Int)).tmod md.WPoStProvingPeriod)
        + (md.PeriodStart.tmod md.WPoStProvingPeriod) - 1 := rfl
  refine ⟨_, calcDealExpiration_eq fuel minDuration md startEpoch hP, ?_⟩
  have key : ∀ e : Int, startEpoch + (minDuration : Int) ≤ e →
      (e - (startEpoch + (minDuration : Int)) < md.WPoStProvingPeriod ↔
        md.PeriodStart.tmod md.WPoStProvingPeriod
          ≤ (startEpoch + (minDuration : Int)).tmod md.WPoStProvingPeriod) →
      ((∀ e2 : Int, startEpoch + (minDuration : Int) ≤ e2 → e2 < e →
          ¬ e2 ≡ e [ZMOD md.WPoStProvingPeriod]) ↔
        md.PeriodStart.tmod md.WPoStProvingPeriod
          ≤ (startEpoch + (minDuration : Int)).tmod md.WPoStProvingPeriod) := by
    intro e _ hiff
    rw [no_smaller_aligned_iff _ _ _ hP]
    exact hiff
  split
  · have hle : startEpoch + (minDuration : Int)
        ≤ firstCandidate (startEpoch + (minDuration : Int)) md + md.WPoStProvingPeriod := by
      omega
    have hiff : (firstCandidate (startEpoch + (minDuration : Int)) md + md.WPoStProvingPeriod
          - (startEpoch + (minDuration : Int)) < md.WPoStProvingPeriod ↔
        md.PeriodStart.tmod md.WPoStProvingPeriod
          ≤ (startEpoch + (minDuration : Int)).tmod md.WPoStProvingPeriod) := by
      constructor <;> intro _ <;> omega
    exact ⟨hle, by omega, hiff, key _ hle hiff⟩
  · have hle : startEpoch + (minDuration : Int)
        ≤ firstCandidate (startEpoch + (minDuration : Int)) md := by omega
    have hiff : (firstCandidate (startEpoch + (minDuration : Int)) md
          - (startEpoch + (minDuration : Int)) < md.WPoStProvingPeriod ↔
        md.PeriodStart.tmod md.WPoStProvingPeriod
          ≤ (startEpoch + (minDuration : Int)).tmod md.WPoStProvingPeriod) := by
      constructor <;> intro _ <;> omega
    exact ⟨hle, by omega, hiff, key _ hle hiff⟩

/-! ## Theorems on the deal starter -/

/-- C4: in the stateless flow, once the signed proposal `msg` has been
written and the response `resp` read, the call succeeds with `c` exactly
when `c` is the local commitment of the signed proposal, the response names
`c`, and the response state is "waiting for data"; when the response names
another commitment the call fails with the mismatch error whatever the
state; and the read is the last call made, so the stream is not read again. -/
theorem dealStarter_stateless_response (env : DealEnv) (fuel : Nat) (params : StartDealParams)
    (msg : Proposal) (resp : Response)
    (hw : Call.WriteDealProposal msg ∈ (dealStarter env fuel params true).2)
    (hr : Call.ReadDealResponse ∈ (dealStarter env fuel params true).2)
    (hresp : env.ReadDealResponse = .ok resp) :
    (∀ c, (dealStarter env fuel params true).1 = .ok c ↔
      (env.AsIpld msg.DealProposal = .ok c ∧ resp.Proposal = c ∧
        resp.State = env.StorageDealWaitingForData)) ∧
    (∀ c, env.AsIpld msg.DealProposal = .ok c → resp.Proposal ≠ c →
      (dealStarter env fuel params true).1 = .err (.proposalCidMismatch resp.Proposal c)) ∧
    (∃ pre, (dealStarter env fuel params true).2 = pre ++ [Call.ReadDealResponse] ∧
      Call.ReadDealResponse ∉ pre) := by
  obtain ⟨hout, hpre⟩ := dealStarter_stateless_read env fuel params msg resp hresp hw hr
  refine ⟨?_, ?_, hpre⟩
  · intro c
    rw [hout]
    unfold checkResponse
    cases hA : env.AsIpld msg.DealProposal with
    | error e => simp [Eff.fail]
    | ok c2 =>
      by_cases h1 : c2 = resp.Proposal
      · by_cases h2 : resp.State = env.StorageDealWaitingForData
        · simp only [h1, h2, not_true_eq_false, ne_eq, if_false, Eff.pure_apply,
            Outcome.ok.injEq, Except.ok.injEq, and_true]
          exact ⟨fun h => ⟨h, h⟩, fun h => h.1⟩
        · simp [h1, h2, Eff.fail]
      · simp only [h1, not_false_eq_true, if_true, Eff.fail, Except.ok.injEq, false_iff,
          not_and, reduceCtorEq]
        intro h3 h4
        exact absurd (h3.trans h4.symm) h1
  · intro c hA hne
    rw [hout]
    unfold checkResponse
    have h1 : ¬ c = resp.Proposal := fun h => hne h.symm
    simp [hA, h1, Eff.fail]

theorem dealStarter_stateless_response_witness :
    (dealStarter scenarioEnv 1 scenarioParams true).1 = .ok 77 ∧
      ∃ pre, (dealStarter scenarioEnv 1 scenarioParams true).2
          = pre ++ [Call.ReadDealResponse] ∧ Call.ReadDealResponse ∉ pre :=
  have h := dealStarter_stateless_response scenarioEnv 1 scenarioParams scenarioMessage
    { State := 18, Message := "", Proposal := 77 } (by decide) (by decide) rfl
  ⟨(h.1 77).2 ⟨rfl, rfl, rfl⟩, h.2.2⟩

/-- C5: a stateless deal whose transfer type is not manual, or whose epoch
price is not zero, fails with an error and an empty trace: no collaborator
has been called. -/
theorem dealStarter_stateless_rejects (env : DealEnv) (fuel : Nat) (params : StartDealParams)
    (h : params.Data.TransferType ≠ env.TTManual ∨ params.EpochPrice ≠ 0) :
    ClientStatelessDeal env fuel params = dealStarter env fuel params true ∧
    dealStarter env fuel params true =
      (.err (if params.Data.TransferType ≠ env.TTManual
          then DealErr.invalidTransferType params.Data.TransferType
          else DealErr.statelessNonZeroPrice), []) := by
  refine ⟨rfl, ?_⟩
  unfold dealStarter
  simp only [Eff.bind_apply, Eff.andThen, checkTransfer]
  by_cases h1 : params.Data.TransferType = env.TTManual
  · have h2 : params.EpochPrice ≠ 0 := by
      rcases h with h | h
      · exact absurd h1 h
      · exact h
    simp [h1, h2, Eff.fail]
  · simp [h1, Eff.fail]

theorem dealStarter_stateless_rejects_witness :
    dealStarter scenarioEnv 1 { scenarioParams with EpochPrice := 5 } true =
      (.err DealErr.statelessNonZeroPrice, []) :=
  (dealStarter_stateless_rejects scenarioEnv 1 { scenarioParams with EpochPrice := 5 }
    (Or.inr (by decide))).2

/-- C6: when the miner info `mi` the chain reports has a sector size below
the padded piece size, `dealStarter` (stateless or regular) ends in an error
and makes no `ProposeStorageDeal`, `WalletSign` or `WriteDealProposal` call,
and when the queries before the check succeed the error is "data doesn't fit
in a sector"; when the padded size equals the sector size the check passes
and the run goes on with the rest of the function. -/
theorem dealStarter_sector_size_check (env : DealEnv) (fuel : Nat) (params : StartDealParams)
    (isStateless : Bool) (mi : MinerInfo) (walletKey : Address) (md : DlineInfo)
    (hMi : env.StateMinerInfo params.Miner = .ok mi) :
    (env.Padded params.Data.PieceSize > mi.SectorSize →
      ((∃ e, (dealStarter env fuel params isStateless).1 = .err e) ∧
        (∀ p, Call.ProposeStorageDeal p ∉ (dealStarter env fuel params isStateless).2) ∧
        (∀ a m, Call.WalletSign a m ∉ (dealStarter env fuel params isStateless).2) ∧
        (∀ p, Call.WriteDealProposal p ∉ (dealStarter env fuel params isStateless).2)) ∧
      ((checkTransfer env params isStateless []).1 = .ok () →
        env.StateAccountKey params.Wallet = .ok walletKey →
        env.WalletHas walletKey = .ok true →
        env.StateMinerProvingDeadline params.Miner = .ok md →
        dealStarter env fuel params isStateless =
          (.err .dataDoesNotFit, traceAtSizeCheck env params isStateless walletKey))) ∧
    (env.Padded params.Data.PieceSize = mi.SectorSize →
      (checkTransfer env params isStateless []).1 = .ok () →
      env.StateAccountKey params.Wallet = .ok walletKey →
      env.WalletHas walletKey = .ok true →
      env.StateMinerProvingDeadline params.Miner = .ok md →
      dealStarter env fuel params isStateless =
        proposeFlow env fuel params isStateless walletKey mi md
          (traceAtSizeCheck env params isStateless walletKey)) := by
  refine ⟨fun hbig => ⟨?_, ?_⟩, ?_⟩
  · unfold dealStarter
    simp only [Eff.bind_apply]
    rw [Eff.andThen]
    rcases checkTransfer_cases env params isStateless [] with ⟨e, h⟩ | ⟨e, h⟩ | h | h <;>
      rw [h] <;> simp only []
    · simp
    · simp
    all_goals
      cases hKey : env.StateAccountKey params.Wallet with
      | error s => simp [Eff.andThen, Eff.call, Eff.fail, hKey]
      | ok wk =>
        cases hHas : env.WalletHas wk with
        | error s => simp [Eff.andThen, Eff.call, Eff.fail, hKey, hHas]
        | ok b =>
          cases b
          · simp [Eff.andThen, Eff.call, Eff.fail, hKey, hHas]
          · cases hMd : env.StateMinerProvingDeadline params.Miner with
            | error s => simp [Eff.andThen, Eff.call, Eff.fail, hKey, hHas, hMi, hMd]
            | ok md => simp [Eff.andThen, Eff.call, Eff.fail, hKey, hHas, hMi, hMd, hbig]
  · intro hT hKey hHas hMd
    unfold dealStarter traceAtSizeCheck
    simp only [Eff.bind_apply]
    rw [Eff.andThen]
    rcases checkTransfer_cases env params isStateless [] with ⟨e, h⟩ | ⟨e, h⟩ | h | h <;>
      rw [h] at hT ⊢ <;> simp at hT <;>
      simp [Eff.andThen, Eff.call, Eff.fail, hKey, hHas, hMi, hMd, hbig]
  · intro heq hT hKey hHas hMd
    have hnot : ¬ env.Padded params.Data.PieceSize > mi.SectorSize := by omega
    unfold dealStarter traceAtSizeCheck
    simp only [Eff.bind_apply]
    rw [Eff.andThen]
    rcases checkTransfer_cases env params isStateless [] with ⟨e, h⟩ | ⟨e, h⟩ | h | h <;>
      rw [h] at hT ⊢ <;> simp at hT <;>
      simp [Eff.andThen, Eff.call, Eff.fail, hKey, hHas, hMi, hMd, hnot]

theorem dealStarter_sector_size_check_witness :
    dealStarter smallSectorEnv 1 scenarioParams true =
        (.err .dataDoesNotFit, traceAtSizeCheck smallSectorEnv scenarioParams true 3) ∧
      dealStarter exactSectorEnv 1 scenarioParams true =
        proposeFlow exactSectorEnv 1 scenarioParams true 3
          { Worker := 2, SectorSize := 1024, PeerId := some "peer", Multiaddrs := [],
            WindowPoStProofType := 0 }
          { PeriodStart := 5, WPoStProvingPeriod := 10 }
          (traceAtSizeCheck exactSectorEnv scenarioParams true 3) :=
  ⟨((dealStarter_sector_size_check smallSectorEnv 1 scenarioParams true
      { Worker := 2, SectorSize := 512, PeerId := some "peer", Multiaddrs := [],
        WindowPoStProofType := 0 } 3 { PeriodStart := 5, WPoStProvingPeriod := 10 } rfl).1
      (by decide)).2 (by decide) rfl rfl rfl,
   (dealStarter_sector_size_check exactSectorEnv 1 scenarioParams true
      { Worker := 2, SectorSize := 1024, PeerId := some "peer", Multiaddrs := [],
        WindowPoStProofType := 0 } 3 { PeriodStart := 5, WPoStProvingPeriod := 10 } rfl).2
      (by decide) (by decide) rfl rfl rfl⟩

/-! ## Theorems on the event bridge -/

/-- C7: absent cancellation, when the source's events include a terminal
event for the deal, the bridge (root filter, then `readSubscribeEvents`)
returns, and what it sends to the output is exactly the source events with
the order's root and the assigned identifier, in emission order, up to and
including the first terminal one; it does nothing else. -/
theorem bridge_forwards_deal_events (root : Cid) (dealID : Nat)
    (src : List retrievalSubscribeEvent)
    (h : ∃ e ∈ src, isForDeal root dealID e = true ∧ isTerminal e.state.Status = true) :
    emitted (bridge root dealID (uncancelled src) []).2 =
        (uptoTerminal (src.filter (isForDeal root dealID))).map forwardedEvent ∧
      (bridge root dealID (uncancelled src) []).2 =
        (uptoTerminal (src.filter (isForDeal root dealID))).map
          (fun e => Call.emit (forwardedEvent e)) ∧
      ((bridge root dealID (uncancelled src) []).1 = .ok () ∨
        ∃ m, (bridge root dealID (uncancelled src) []).1 = .err m) := by
  have htr := bridge_uncancelled_trace root dealID src []
  rw [List.nil_append] at htr
  refine ⟨?_, htr, bridge_uncancelled_returns root dealID src [] h⟩
  rw [htr]
  unfold emitted
  rw [List.filterMap_map]
  have : ((fun c : Call => match c with | .emit e => some e | _ => none) ∘
      fun e => Call.emit (forwardedEvent e)) = fun e => some (forwardedEvent e) := rfl
  rw [this]
  generalize uptoTerminal (src.filter (isForDeal root dealID)) = l
  induction l with
  | nil => rfl
  | cons a l ih => simp [List.filterMap_cons, ih]

theorem bridge_forwards_deal_events_witness :
    emitted (bridge 1 7 (uncancelled sourceEvents) []).2 =
        [forwardedEvent (sourceEvent 1 7 .Accepted),
         forwardedEvent (sourceEvent 1 7 .FundsNeeded),
         forwardedEvent (sourceEvent 1 7 .Completed)] ∧
      ((bridge 1 7 (uncancelled sourceEvents) []).1 = .ok () ∨
        ∃ m, (bridge 1 7 (uncancelled sourceEvents) []).1 = .err m) :=
  have h := bridge_forwards_deal_events 1 7 sourceEvents
    ⟨sourceEvent 1 7 .Completed, by decide, by decide, by decide⟩
  ⟨h.1.trans (by decide), h.2.2⟩

/-- C8: after forwarding an event of the assigned deal, `readSubscribeEvents`
stops exactly when the status is Completed, Rejected, Cancelled,
DealNotFound or Errored: it then returns, with nil exactly for Completed and
otherwise an error text that ends with the deal state's message; for every
other status it goes on with the rest of the schedule. -/
theorem readSubscribeEvents_after_forward (dealID : Nat) (e : retrievalSubscribeEvent)
    (rest : List Select) (tr : List Call) (hid : e.state.ID = dealID) :
    (isTerminal e.state.Status = true →
      readSubscribeEvents dealID (.recv e true :: rest) tr =
        ((match e.state.Status with
          | .Completed => .ok ()
          | .Rejected => .err ("Retrieval Proposal Rejected: " ++ e.state.Message)
          | .Cancelled => .err ("Retrieval was cancelled externally: " ++ e.state.Message)
          | _ => .err ("Retrieval Error: " ++ e.state.Message)),
         tr ++ [Call.emit (forwardedEvent e)]) ∧
      ((readSubscribeEvents dealID (.recv e true :: rest) tr).1 = .ok () ↔
        e.state.Status = .Completed)) ∧
    (isTerminal e.state.Status = false →
      readSubscribeEvents dealID (.recv e true :: rest) tr =
        readSubscribeEvents dealID rest (tr ++ [Call.emit (forwardedEvent e)])) := by
  rw [readSubscribeEvents_cons_recv]
  simp only [hid, ne_eq, not_true_eq_false, if_false, Bool.not_eq_true]
  cases hs : e.state.Status <;> simp [isTerminal, classify, hs]

theorem readSubscribeEvents_after_forward_witness :
    readSubscribeEvents 7 [.recv (sourceEvent 1 7 .Rejected) true, .ctxDone] [] =
        (.err "Retrieval Proposal Rejected: ", [Call.emit (forwardedEvent (sourceEvent 1 7 .Rejected))]) ∧
      readSubscribeEvents 7 [.recv (sourceEvent 1 7 .Accepted) true, .ctxDone] [] =
        readSubscribeEvents 7 [.ctxDone] [Call.emit (forwardedEvent (sourceEvent 1 7 .Accepted))] :=
  ⟨((readSubscribeEvents_after_forward 7 (sourceEvent 1 7 .Rejected) [.ctxDone] [] rfl).1
      (by decide)).1,
   (readSubscribeEvents_after_forward 7 (sourceEvent 1 7 .Accepted) [.ctxDone] [] rfl).2
      (by decide)⟩

/-- C9: when `readSubscribeEvents` takes the caller's cancellation (at
either `select`) before it has forwarded a terminal event of the assigned
deal, it returns the error "Retrieval Timed Out" and has sent only what it
sent before the cancellation; and then a `clientRetrieve` that had to
retrieve makes no `WriteCarV1` or `WriteUnixFSFile` call and sends no event
with status Completed. -/
theorem retrieval_cancelled (env : RetrievalEnv) (order : RetrievalOrder)
    (ref : Option FileRef) (dealID : Nat) (pre : List Select) (c : Select)
    (post : List Select) (tr : List Call)
    (hpre : ∀ s ∈ pre, beforeCancel dealID s = true) (hc : takesCancel dealID c = true) :
    readSubscribeEvents dealID (pre ++ c :: post) tr =
        (.err "Retrieval Timed Out", (readSubscribeEvents dealID pre tr).2) ∧
    (order.LocalCARV2FilePath = "" →
      (∀ r p t mp cl m d, env.Retrieve r p t mp cl m = .ok d → d = dealID) →
      subscriptionFilter order.Root [c] = [c] →
      (∀ root path,
        Call.WriteCarV1 root path ∉ (clientRetrieve env order ref (pre ++ c :: post)).2) ∧
      (∀ root path,
        Call.WriteUnixFSFile root path ∉ (clientRetrieve env order ref (pre ++ c :: post)).2) ∧
      (∀ ev ∈ emitted (clientRetrieve env order ref (pre ++ c :: post)).2,
        ev.Status ≠ .Completed)) := by
  refine ⟨readSubscribeEvents_cancel dealID pre c post tr hpre hc, ?_⟩
  intro hlocal hRet hroot
  have hquiet : ∀ x ∈ (clientRetrieve env order ref (pre ++ c :: post)).2,
      x.marksSuccess = false := by
    obtain ⟨o, l, hphase, hne, hq⟩ :=
      retrievalPhase_cancel env order dealID pre c post hRet hpre hc hroot
    unfold clientRetrieve
    simp only [hlocal, ne_eq, not_true_eq_false, decide_False, Bool.false_eq_true,
      not_false_eq_true, if_true, hphase]
    cases o with
    | ok u => exact absurd rfl hne
    | err e =>
      simp only [List.forall_mem_append, List.forall_mem_cons]
      exact ⟨hq, by simp [Call.marksSuccess, failureEvent], by simp [Call.marksSuccess]⟩
    | panic =>
      simp only [List.forall_mem_append, List.forall_mem_singleton]
      exact ⟨hq, rfl⟩
    | unfinished => exact hq
  refine ⟨fun root path hmem => ?_, fun root path hmem => ?_, fun ev hev => ?_⟩
  · simpa [Call.marksSuccess] using hquiet _ hmem
  · simpa [Call.marksSuccess] using hquiet _ hmem
  · have hmem : Call.emit ev ∈ (clientRetrieve env order ref (pre ++ c :: post)).2 := by
      unfold emitted at hev
      obtain ⟨x, hx, hxe⟩ := List.mem_filterMap.1 hev
      cases x <;> simp at hxe
      subst hxe
      exact hx
    simpa [Call.marksSuccess] using hquiet _ hmem

theorem retrieval_cancelled_witness :
    readSubscribeEvents 7
        ([.recv (sourceEvent 1 7 .Accepted) true] ++ .ctxDone ::
          [.recv (sourceEvent 1 7 .Completed) true]) [] =
        (.err "Retrieval Timed Out",
          (readSubscribeEvents 7 [.recv (sourceEvent 1 7 .Accepted) true] []).2) ∧
      ∀ ev ∈ emitted (clientRetrieve retrievalEnv scenarioOrder
          (some { Path := "/out", IsCAR := true })
          ([.recv (sourceEvent 1 7 .Accepted) true] ++ .ctxDone ::
            [.recv (sourceEvent 1 7 .Completed) true])).2,
        ev.Status ≠ .Completed :=
  have h := retrieval_cancelled retrievalEnv scenarioOrder (some { Path := "/out", IsCAR := true })
    7 [.recv (sourceEvent 1 7 .Accepted) true] .ctxDone
    [.recv (sourceEvent 1 7 .Completed) true] [] (by decide) (by decide)
  ⟨h.1, (h.2 rfl (fun _ _ _ _ _ _ _ hd => (Except.ok.inj hd).symm) (by decide)).2.2⟩

/-! ## Theorems on the query dispatcher -/

/-- C11: when `Retrieval.Query` fails with the error text `e`,
`makeRetrievalQuery` returns an offer (it does not return an error) whose
`Err` is `e`, whose `Miner` and `MinerPeer` are the queried counterparty,
and whose size, prices and payment intervals are zero or unset. -/
theorem makeRetrievalQuery_query_error (env : RetrievalEnv) (rp : RetrievalPeer)
    (payload : Cid) (piece : Option Cid) (tr : List Call) (e : String)
    (h : env.Query rp payload = .error e) :
    ∃ o, makeRetrievalQuery env rp payload piece tr
        = (.ok o, tr ++ [Call.Query rp.Address rp.ID payload]) ∧
      o.Err = e ∧ o.Miner = rp.Address ∧ o.MinerPeer = rp ∧
      o.Size = 0 ∧ o.MinPrice = none ∧ o.UnsealPrice = none ∧
      o.PaymentInterval = 0 ∧ o.PaymentIntervalIncrease = 0 := by
  unfold makeRetrievalQuery
  simp only [h]
  exact ⟨_, rfl, rfl, rfl, rfl, rfl, rfl, rfl, rfl, rfl⟩

theorem makeRetrievalQuery_query_error_witness :
    ∃ o, makeRetrievalQuery retrievalEnv { Address := 10, ID := "a", PieceCID := none } 1 none []
        = (.ok o, [] ++ [Call.Query 10 "a" 1]) ∧
      o.Err = "timed out" ∧ o.Miner = 10 ∧
      o.MinerPeer = { Address := 10, ID := "a", PieceCID := none } ∧
      o.Size = 0 ∧ o.MinPrice = none ∧ o.UnsealPrice = none ∧
      o.PaymentInterval = 0 ∧ o.PaymentIntervalIncrease = 0 :=
  makeRetrievalQuery_query_error retrievalEnv { Address := 10, ID := "a", PieceCID := none }
    1 none [] "timed out" rfl

/-- Over exact integers and with a period length above zero
`calcDealExpiration` returns an epoch: one iteration of the alignment loop
is always enough and the value does not depend on the fuel; the run panics
exactly when the period length is zero. -/
theorem calcDealExpiration_terminates (minDuration : Nat) (md : DlineInfo)
    (startEpoch : Int) :
    (0 < md.WPoStProvingPeriod →
      ∃ e, ∀ fuel, calcDealExpiration (fuel + 1) minDuration md startEpoch = .ret e) ∧
    (∀ fuel, calcDealExpiration fuel minDuration md startEpoch = .panic ↔
      md.WPoStProvingPeriod = 0) ∧
    ((∀ fuel e, calcDealExpiration fuel minDuration md startEpoch ≠ .ret e) →
      md.WPoStProvingPeriod ≤ 0) := by
  refine ⟨fun hP => ⟨_, fun fuel => calcDealExpiration_eq fuel minDuration md startEpoch hP⟩,
    fun fuel => ?_, fun h => ?_⟩
  · unfold calcDealExpiration
    by_cases h0 : md.WPoStProvingPeriod = 0
    · simp [h0]
    · simp only [h0, if_false, iff_false]
      exact alignLoop_ne_panic _ _ _ _
  · by_contra hP
    have hpos : 0 < md.WPoStProvingPeriod := by omega
    exact h 1 _ (calcDealExpiration_eq 0 minDuration md startEpoch hpos)

/-- Over exact integers, with a period length above zero and a phase that
is not negative, the first candidate is already at or above the minimum
bound, so the body of the alignment loop never runs and the result is
`minExp + P - minExp % P + PeriodStart % P - 1` with Go's truncated
remainder; a first candidate below the bound needs a negative phase. -/
theorem calcDealExpiration_first_candidate (minDuration : Nat) (md : DlineInfo)
    (startEpoch : Int) (hP : 0 < md.WPoStProvingPeriod) :
    (0 ≤ md.PeriodStart →
      startEpoch + (minDuration : Int) ≤
          startEpoch + (minDuration : Int) + md.WPoStProvingPeriod
            - (startEpoch + (minDuration : Int)).tmod md.WPoStProvingPeriod
            + md.PeriodStart.tmod md.WPoStProvingPeriod - 1 ∧
        ∀ fuel, calcDealExpiration fuel minDuration md startEpoch =
          .ret (startEpoch + (minDuration : Int) + md.WPoStProvingPeriod
            - (startEpoch + (minDuration : Int)).tmod md.WPoStProvingPeriod
            + md.PeriodStart.tmod md.WPoStProvingPeriod - 1)) ∧
    (firstCandidate (startEpoch + (minDuration : Int)) md < startEpoch + (minDuration : Int) →
      md.PeriodStart < 0) := by
  have h1 := Int.tmod_lt_of_pos (startEpoch + (minDuration : Int)) hP
  have hne : md.WPoStProvingPeriod ≠ 0 := by omega
  have key : 0 ≤ md.PeriodStart →
      startEpoch + (minDuration : Int) ≤ firstCandidate (startEpoch + (minDuration : Int)) md := by
    intro hPS
    have h2 := Int.tmod_nonneg md.WPoStProvingPeriod hPS
    unfold firstCandidate
    omega
  refine ⟨fun hPS => ⟨key hPS, fun fuel => ?_⟩, fun hlt => ?_⟩
  · have hnot : ¬ firstCandidate (startEpoch + (minDuration : Int)) md
        < startEpoch + (minDuration : Int) := by
      have := key hPS
      omega
    simp only [calcDealExpiration, hne, if_false]
    cases fuel <;> simp only [alignLoop, hnot, if_false] <;> rfl
  · by_contra hPS
    have := key (by omega)
    omega

/-! ## Theorems on absent values in the deal starter -/

/-- C18, evaluated on the code: `dealStarter` dereferences `mi.PeerId` and
`params.Data.PieceCid` without a nil check, so it faults instead of
returning when one is absent.  The miner has the window PoSt proof type 5,
for which the seal proof type is found (type 0 is refused with an error
before any dereference), and with a peer identity and a piece identifier
both flows return a proposal identifier.  A regular deal with a miner that
has no peer identity panics after the chain queries; a stateless deal
without a piece identifier panics at the construction of the proposal; a
stateless deal with a miner that has no peer identity panics after the
proposal was signed. -/
theorem dealStarter_faults_on_absent_values :
    windowProofEnv.PreferredSealProofTypeFromWindowPoStType 13 5 = .ok 5 ∧
      windowProofEnv.PreferredSealProofTypeFromWindowPoStType 13 0
        = .error "unrecognized window post type: 0" ∧
      (dealStarter windowProofEnv 1 scenarioParams false).1 = .ok 55 ∧
      (dealStarter windowProofEnv 1 scenarioParams true).1 = .ok 77 ∧
      dealStarter noPeerIdEnv 1 scenarioParams false =
        (.panic, [Call.StateAccountKey 3, Call.WalletHas 3, Call.StateMinerInfo 4,
          Call.StateMinerProvingDeadline 4, Call.StateNetworkVersion]) ∧
      dealStarter windowProofEnv 1 noPieceCidParams true =
        (.panic, [Call.StateAccountKey 3, Call.WalletHas 3, Call.StateMinerInfo 4,
          Call.StateMinerProvingDeadline 4, Call.StateNetworkVersion]) ∧
      dealStarter noPeerIdEnv 1 scenarioParams true =
        (.panic, [Call.StateAccountKey 3, Call.WalletHas 3, Call.StateMinerInfo 4,
          Call.StateMinerProvingDeadline 4, Call.StateNetworkVersion,
          Call.StateDealProviderCollateralBounds 1024 false, Call.WalletSign 3 [1]]) := by
  refine ⟨rfl, rfl, by decide, by decide, by decide, by decide, by decide⟩

/-! ## Theorems on the retrieval orchestrator -/

/-- C13, as stated, fails: for an order of zero size whose payload is already
in a local CARv2 file the validation is skipped, and with no output file
asked for the run closes the stream without sending any event. -/
theorem clientRetrieve_local_skips_validation :
    localOrder.Size = 0 ∧
      clientRetrieve retrievalEnv localOrder none [] = (.ret (), [Call.close]) ∧
      emitted (clientRetrieve retrievalEnv localOrder none []).2 = [] := by
  refine ⟨rfl, by decide, by decide⟩

/-- C13, amended: an order with zero size or a null total never leads to a
subscribe or retrieve call; and when the payload is not already in a local
file and the counterparty is resolved, `clientRetrieve` fails validation: it
sends exactly one event, whose `Err` is the validation message, and closes
the output stream. -/
theorem clientRetrieve_rejects_invalid_order (env : RetrievalEnv) (order : RetrievalOrder)
    (ref : Option FileRef) (sched : List Select)
    (hbad : order.Size = 0 ∨ order.Total = none) :
    (Call.SubscribeToEvents ∉ (clientRetrieve env order ref sched).2 ∧
      ∀ root miner peer, Call.Retrieve root miner peer ∉ (clientRetrieve env order ref sched).2) ∧
    (order.LocalCARV2FilePath = "" →
      ∀ mp, (resolveMinerPeer env order []).1 = .ok mp →
      ∃ msg, (msg = "cannot make retrieval deal for null total" ∨
          msg = "cannot make retrieval deal for zero bytes") ∧
        clientRetrieve env order ref sched =
          (.ret (), (resolveMinerPeer env order []).2
            ++ [Call.emit (failureEvent msg), Call.close]) ∧
        emitted (clientRetrieve env order ref sched).2 = [failureEvent msg]) := by
  constructor
  · have hsub : subscriptionCalls (clientRetrieve env order ref sched).2 = [] := by
      by_cases hlocal : order.LocalCARV2FilePath = ""
      · rw [clientRetrieve_remote env order ref sched hlocal]
        obtain ⟨l0, hl0, hrun, -⟩ := retrievalPhase_invalid env order sched hbad
        obtain ⟨h0s, -, -, -⟩ := lookup_filters l0 order.Miner hl0
        rcases hrun with ⟨e, h⟩ | h <;> rw [h] <;>
          simp [subscriptionCalls, List.filter_append, h0s, Call.isSubscription]
      · rw [clientRetrieve_local env order ref sched hlocal]
        obtain ⟨mt, hms, -, hm⟩ := materialize_shape env order ref []
        rcases hm with hm | ⟨e, hm⟩ <;> rw [hm] <;>
          simp [subscriptionCalls, List.filter_append, hms, Call.isSubscription]
    unfold subscriptionCalls at hsub
    rw [List.filter_eq_nil_iff] at hsub
    exact ⟨fun hmem => hsub _ hmem rfl, fun root miner peer hmem => hsub _ hmem rfl⟩
  · intro hlocal mp hmp
    obtain ⟨l0, hl0, -, hval⟩ := retrievalPhase_invalid env order sched hbad
    obtain ⟨msg, hmsg, hrun⟩ := hval mp hmp
    refine ⟨msg, hmsg, ?_⟩
    rw [clientRetrieve_remote env order ref sched hlocal, hrun]
    refine ⟨rfl, ?_⟩
    obtain ⟨l1, hl1, htr⟩ := resolveMinerPeer_trace env order []
    have htr2 : (resolveMinerPeer env order []).2 = l1 := by
      rcases htr with ⟨_, h⟩ | ⟨_, h⟩ | h <;> rw [h] <;> simp
    obtain ⟨-, -, -, hem⟩ := lookup_filters l1 order.Miner hl1
    simp only [htr2]
    unfold emitted at hem ⊢
    simp [List.filterMap_append, hem]


theorem clientRetrieve_rejects_invalid_order_witness :
    ∃ msg, (msg = "cannot make retrieval deal for null total" ∨
        msg = "cannot make retrieval deal for zero bytes") ∧
      clientRetrieve retrievalEnv zeroSizeOrder none [] =
        (.ret (), (resolveMinerPeer retrievalEnv zeroSizeOrder []).2
          ++ [Call.emit (failureEvent msg), Call.close]) ∧
      emitted (clientRetrieve retrievalEnv zeroSizeOrder none []).2 = [failureEvent msg] :=
  (clientRetrieve_rejects_invalid_order retrievalEnv zeroSizeOrder none [] (Or.inl rfl)).2 rfl
    { Address := 10, ID := "a", PieceCID := none } rfl

/-- The runs of `clientRetrieve` in which no dereference faults and every
send is received: at most one event with a non-empty `Err` is sent, and it is
followed only by the deferred cleanup and the close of the output stream;
and when the retrieval phase returns the error `e` (error texts of the chain
lookup being non-empty), the run sends exactly one such event, the failure
event of `e`, right before the close, and calls neither `WriteCarV1` nor
`WriteUnixFSFile`. -/
theorem clientRetrieve_failure_event (env : RetrievalEnv) (order : RetrievalOrder)
    (ref : Option FileRef) (sched : List Select) :
    (errorEvents (clientRetrieve env order ref sched).2 = [] ∨
      ∃ ev pre, ev.Err ≠ "" ∧ errorEvents (clientRetrieve env order ref sched).2 = [ev] ∧
        ((clientRetrieve env order ref sched).2 = pre ++ [Call.emit ev, Call.close] ∨
          (clientRetrieve env order ref sched).2
            = pre ++ [Call.emit ev, Call.Cleanup order.Root, Call.close])) ∧
    (order.LocalCARV2FilePath = "" →
      ∀ e, (retrievalPhase env order sched []).1 = .err e →
      (∀ s, env.StateMinerInfo order.Miner = .error s → s ≠ "") →
      e ≠ "" ∧
      clientRetrieve env order ref sched =
        (.ret (), (retrievalPhase env order sched []).2
          ++ [Call.emit (failureEvent e), Call.close]) ∧
      errorEvents (clientRetrieve env order ref sched).2 = [failureEvent e] ∧
      (∀ root path, Call.WriteCarV1 root path ∉ (clientRetrieve env order ref sched).2) ∧
      (∀ root path, Call.WriteUnixFSFile root path ∉ (clientRetrieve env order ref sched).2)) := by
  constructor
  · by_cases hlocal : order.LocalCARV2FilePath = ""
    · rw [clientRetrieve_remote env order ref sched hlocal]
      obtain ⟨l0, fw, peer, hl0, hfw, hshape⟩ := retrievalPhase_shape env order sched
      obtain ⟨-, h0e, -, -⟩ := lookup_filters l0 order.Miner hl0
      have hfe := hfw.filter_isErrorEvent
      rcases hshape with ⟨e, h, -⟩ | h | ⟨s, h⟩ | ⟨m, h⟩ | h | h <;> rw [h] <;> simp only []
      · exact failure_last l0 [Call.close] e order.Root h0e (Or.inl rfl)
      · exact Or.inl (errorEvents_none _ (by simp [List.filter_append, h0e, Call.isErrorEvent]))
      · exact failure_last
          (l0 ++ [Call.SubscribeToEvents, Call.Retrieve order.Root order.Miner peer,
            Call.unsubscribe]) [Call.close] _ order.Root
          (by simp [List.filter_append, h0e, Call.isErrorEvent]) (Or.inl rfl)
      · exact failure_last
          (l0 ++ [Call.SubscribeToEvents, Call.Retrieve order.Root order.Miner peer] ++ fw
            ++ [Call.unsubscribe]) [Call.close] _ order.Root
          (by simp [List.filter_append, h0e, hfe, Call.isErrorEvent]) (Or.inl rfl)
      · obtain ⟨mt, -, hme, hm⟩ := materialize_shape env order ref
          (l0 ++ [Call.SubscribeToEvents, Call.Retrieve order.Root order.Miner peer] ++ fw
            ++ [Call.unsubscribe])
        rcases hm with hm | ⟨e, hm⟩ <;> rw [hm] <;> simp only []
        · exact Or.inl (errorEvents_none _
            (by simp [List.filter_append, h0e, hfe, hme, Call.isErrorEvent]))
        · exact failure_last
            (l0 ++ [Call.SubscribeToEvents, Call.Retrieve order.Root order.Miner peer] ++ fw
              ++ [Call.unsubscribe] ++ mt) [Call.Cleanup order.Root, Call.close] e order.Root
            (by simp [List.filter_append, h0e, hfe, hme, Call.isErrorEvent]) (Or.inr rfl)
      · exact Or.inl (errorEvents_none _
          (by simp [List.filter_append, h0e, hfe, Call.isErrorEvent]))
    · rw [clientRetrieve_local env order ref sched hlocal]
      obtain ⟨mt, -, hme, hm⟩ := materialize_shape env order ref []
      rcases hm with hm | ⟨e, hm⟩ <;> rw [hm] <;> simp only []
      · exact Or.inl (errorEvents_none _
          (by simp [List.filter_append, hme, Call.isErrorEvent]))
      · exact failure_last ([] ++ mt) [Call.close] e order.Root
          (by simp [hme]) (Or.inl rfl)
  · intro hlocal e hphase htext
    rw [clientRetrieve_remote env order ref sched hlocal]
    obtain ⟨l0, fw, peer, hl0, hfw, hshape⟩ := retrievalPhase_shape env order sched
    obtain ⟨-, h0e, h0m, -⟩ := lookup_filters l0 order.Miner hl0
    have hfe := hfw.filter_isErrorEvent
    have hfm := hfw.filter_isMaterialization
    rcases hshape with ⟨e2, h, htxt⟩ | h | ⟨s, h⟩ | ⟨m, h⟩ | h | h <;>
      rw [h] at hphase ⊢ <;> simp only [Outcome.err.injEq, reduceCtorEq] at hphase
    · subst hphase
      have he : e2 ≠ "" := by
        rcases htxt with htxt | htxt
        · exact htxt
        · exact absurd rfl (htext "" htxt)
      exact ⟨he, rfl, failed_phase_log l0 e2 he h0e h0m⟩
    · subst hphase
      have he : "Retrieve failed: " ++ s ≠ "" := append_ne_empty _ _ (by decide)
      exact ⟨he, rfl, failed_phase_log _ _ he
        (by simp [List.filter_append, h0e, Call.isErrorEvent])
        (by simp [List.filter_append, h0m, Call.isMaterialization])⟩
    · subst hphase
      have he : "Retrieve: " ++ m ≠ "" := append_ne_empty _ _ (by decide)
      exact ⟨he, rfl, failed_phase_log _ _ he
        (by simp [List.filter_append, h0e, hfe, Call.isErrorEvent])
        (by simp [List.filter_append, h0m, hfm, Call.isMaterialization])⟩

/-- C14, evaluated on the code: `clientRetrieve` dereferences `mi.PeerId`
without a nil check when it resolves the counterparty.  For an order with no
counterparty peer, not retrieved locally, and a miner for which the chain
reports no peer identity, the retrieval phase fails at counterparty
resolution by a fault: the run panics after the chain lookup, no event is
sent at all, so no failure event, and the stream is closed by the deferred
call.  On the sibling path, where the chain lookup returns an error, the
failure event is sent. -/
theorem clientRetrieve_faults_on_absent_peer_id :
    unresolvedOrder.LocalCARV2FilePath = "" ∧ unresolvedOrder.MinerPeer = none ∧
      (noPeerRetrievalEnv.StateMinerInfo unresolvedOrder.Miner).toOption.map
        (fun mi => mi.PeerId) = some none ∧
      clientRetrieve noPeerRetrievalEnv unresolvedOrder (some { Path := "/out", IsCAR := true }) []
        = (.panic, [Call.StateMinerInfo 10, Call.close]) ∧
      emitted (clientRetrieve noPeerRetrievalEnv unresolvedOrder
        (some { Path := "/out", IsCAR := true }) []).2 = [] ∧
      clientRetrieve staleCandidateEnv { unresolvedOrder with Miner := 11 }
          (some { Path := "/out", IsCAR := true }) []
        = (.ret (), [Call.StateMinerInfo 11, Call.emit (failureEvent "actor not found"),
            Call.close]) := by
  refine ⟨rfl, rfl, rfl, by decide, by decide, by decide⟩

/-- C15: in every run of `clientRetrieve` that has ended, the subscribe,
retrieve and unsubscribe calls are either none or exactly
`SubscribeToEvents`, `Retrieve`, `unsubscribe` in this order; a run that is
still waiting in the bridge has subscribed and retrieved and not yet
unsubscribed. -/
theorem clientRetrieve_subscription_calls (env : RetrievalEnv) (order : RetrievalOrder)
    (ref : Option FileRef) (sched : List Select) :
    ((clientRetrieve env order ref sched).1 ≠ .unfinished →
      subscriptionCalls (clientRetrieve env order ref sched).2 = [] ∨
      ∃ peer, subscriptionCalls (clientRetrieve env order ref sched).2 =
        [Call.SubscribeToEvents, Call.Retrieve order.Root order.Miner peer, Call.unsubscribe]) ∧
    ((clientRetrieve env order ref sched).1 = .unfinished →
      ∃ peer, subscriptionCalls (clientRetrieve env order ref sched).2 =
        [Call.SubscribeToEvents, Call.Retrieve order.Root order.Miner peer]) := by
  by_cases hlocal : order.LocalCARV2FilePath = ""
  · rw [clientRetrieve_remote env order ref sched hlocal]
    obtain ⟨l0, fw, peer, hl0, hfw, hshape⟩ := retrievalPhase_shape env order sched
    obtain ⟨h0s, -, -, -⟩ := lookup_filters l0 order.Miner hl0
    have hfs := hfw.filter_isSubscription
    rcases hshape with ⟨e, h, -⟩ | h | ⟨s, h⟩ | ⟨m, h⟩ | h | h <;> rw [h] <;> simp only []
    · simp [subscriptionCalls, List.filter_append, h0s, Call.isSubscription]
    · simp [subscriptionCalls, List.filter_append, h0s, Call.isSubscription]
    · simp [subscriptionCalls, List.filter_append, h0s, Call.isSubscription]
    · simp [subscriptionCalls, List.filter_append, h0s, hfs, Call.isSubscription]
    · obtain ⟨mt, hms, -, hm⟩ := materialize_shape env order ref
        (l0 ++ [Call.SubscribeToEvents, Call.Retrieve order.Root order.Miner peer] ++ fw
          ++ [Call.unsubscribe])
      rcases hm with hm | ⟨e, hm⟩ <;> rw [hm] <;>
        simp [subscriptionCalls, List.filter_append, h0s, hfs, hms, Call.isSubscription]
    · simp [subscriptionCalls, List.filter_append, h0s, hfs, Call.isSubscription]
  · rw [clientRetrieve_local env order ref sched hlocal]
    obtain ⟨mt, hms, -, hm⟩ := materialize_shape env order ref []
    rcases hm with hm | ⟨e, hm⟩ <;> rw [hm] <;>
      simp [subscriptionCalls, List.filter_append, hms, Call.isSubscription]


theorem clientRetrieve_subscription_calls_witness :
    subscriptionCalls (clientRetrieve retrievalEnv scenarioOrder
        (some { Path := "/out", IsCAR := true }) (uncancelled sourceEvents)).2 = [] ∨
      ∃ peer, subscriptionCalls (clientRetrieve retrievalEnv scenarioOrder
          (some { Path := "/out", IsCAR := true }) (uncancelled sourceEvents)).2 =
        [Call.SubscribeToEvents, Call.Retrieve scenarioOrder.Root scenarioOrder.Miner peer,
          Call.unsubscribe] :=
  (clientRetrieve_subscription_calls retrievalEnv scenarioOrder
    (some { Path := "/out", IsCAR := true }) (uncancelled sourceEvents)).1 (by decide)

/-! ## The expiration calculator in `int64` arithmetic -/

theorem wrap64_of_fits (x : Int) (h1 : -9223372036854775808 ≤ x)
    (h2 : x < 9223372036854775808) : wrap64 x = x := by
  unfold wrap64
  omega

theorem wrap64_range (x : Int) :
    -9223372036854775808 ≤ wrap64 x ∧ wrap64 x < 9223372036854775808 := by
  unfold wrap64
  omega

theorem wrap64_mod64 (x : Int) : wrap64 x % 64 = x % 64 := by
  unfold wrap64
  omega

theorem alignLoop64_ne_panic (period minExp : Int) (fuel : Nat) (exp : Int) :
    alignLoop64 period minExp fuel exp ≠ .panic := by
  induction fuel generalizing exp with
  | zero =>
    unfold alignLoop64
    split <;> simp
  | succ n ih =>
    unfold alignLoop64
    split
    · exact ih _
    · simp

/-- Inside the window of `noOverflow` the `int64` loop is the exact loop. -/
theorem alignLoop64_eq (period minExp : Int) (fuel : Nat) (exp : Int)
    (hlo : -9223372036854775808 ≤ minExp - period)
    (hhi : minExp + period < 9223372036854775808)
    (hexp : minExp - period ≤ exp) :
    alignLoop64 period minExp fuel exp = alignLoop period minExp fuel exp := by
  induction fuel generalizing exp with
  | zero => rfl
  | succ n ih =>
    unfold alignLoop64 alignLoop
    by_cases hlt : exp < minExp
    · simp only [hlt, if_true]
      rw [wrap64_of_fits (exp + period) (by omega) (by omega)]
      exact ih _ (by omega)
    · simp only [hlt, if_false]

/-- Inside the window of `noOverflow` the `int64` first candidate is the
exact one. -/
theorem firstCandidate64_eq (minExp : Int) (md : DlineInfo) (hP : 0 < md.WPoStProvingPeriod)
    (hlo : -9223372036854775808 ≤ minExp - md.WPoStProvingPeriod)
    (hhi : minExp + 3 * md.WPoStProvingPeriod < 9223372036854775808) :
    firstCandidate64 minExp md = firstCandidate minExp md := by
  have h1 := Int.tmod_lt_of_pos minExp hP
  have h2 := tmod_gt_neg minExp hP
  have h3 := Int.tmod_lt_of_pos md.PeriodStart hP
  have h4 := tmod_gt_neg md.PeriodStart hP
  unfold firstCandidate64 firstCandidate
  rw [wrap64_of_fits (minExp + md.WPoStProvingPeriod) (by omega) (by omega)]
  rw [wrap64_of_fits (minExp + md.WPoStProvingPeriod - minExp.tmod md.WPoStProvingPeriod)
    (by omega) (by omega)]
  rw [wrap64_of_fits (minExp + md.WPoStProvingPeriod - minExp.tmod md.WPoStProvingPeriod
    + md.PeriodStart.tmod md.WPoStProvingPeriod) (by omega) (by omega)]
  rw [wrap64_of_fits _ (by omega) (by omega)]

/-- On inputs that satisfy `noOverflow`, with a positive period, the `int64`
function is the function over exact integers. -/
theorem calcDealExpiration64_eq_exact (fuel minDuration : Nat) (md : DlineInfo)
    (startEpoch : Int) (hP : 0 < md.WPoStProvingPeriod)
    (hno : noOverflow minDuration md startEpoch) :
    calcDealExpiration64 fuel minDuration md startEpoch
      = calcDealExpiration fuel minDuration md startEpoch := by
  obtain ⟨hd, hlo, hhi⟩ := hno
  have hne : md.WPoStProvingPeriod ≠ 0 := by omega
  have hgt := firstCandidate_gt (startEpoch + (minDuration : Int)) md hP
  unfold calcDealExpiration64 calcDealExpiration
  rw [wrap64_of_fits (minDuration : Int) (by omega) hd,
    wrap64_of_fits (startEpoch + (minDuration : Int)) (by omega) (by omega)]
  simp only [hne, if_false]
  rw [firstCandidate64_eq _ md hP hlo hhi]
  exact alignLoop64_eq _ _ _ _ hlo (by omega) (by omega)

/-- With period 2880 and the minimum bound at the largest `int64` value, a
loop variable that is a multiple of 64 stays one and never reaches the bound. -/
theorem alignLoop64_stuck (fuel : Nat) (exp : Int) (hmod : exp % 64 = 0)
    (hhi : exp < 9223372036854775808) :
    alignLoop64 2880 9223372036854775807 fuel exp = .unfinished := by
  induction fuel generalizing exp with
  | zero =>
    unfold alignLoop64
    have : exp < 9223372036854775807 := by omega
    simp [this]
  | succ n ih =>
    unfold alignLoop64
    have : exp < 9223372036854775807 := by omega
    simp only [this, if_true]
    have hr := wrap64_range (exp + 2880)
    have hm := wrap64_mod64 (exp + 2880)
    exact ih _ (by omega) hr.2

/-- C2, amended: with a positive proving period, on inputs whose `int64`
arithmetic does not overflow, `calcDealExpiration` returns an epoch that is
congruent to `PeriodStart - 1` modulo the period. -/
theorem calcDealExpiration64_congruent (fuel minDuration : Nat) (md : DlineInfo)
    (startEpoch : Int) (hP : 0 < md.WPoStProvingPeriod)
    (hno : noOverflow minDuration md startEpoch) :
    ∃ e, calcDealExpiration64 (fuel + 1) minDuration md startEpoch = .ret e ∧
      e ≡ md.PeriodStart - 1 [ZMOD md.WPoStProvingPeriod] := by
  rw [calcDealExpiration64_eq_exact _ _ _ _ hP hno]
  exact calcDealExpiration_congruent fuel minDuration md startEpoch hP

theorem calcDealExpiration64_congruent_witness :
    ∃ e, calcDealExpiration64 (0 + 1) 5 { PeriodStart := -3, WPoStProvingPeriod := 10 } 7
        = .ret e ∧ e ≡ -3 - 1 [ZMOD 10] :=
  calcDealExpiration64_congruent 0 5 { PeriodStart := -3, WPoStProvingPeriod := 10 } 7
    (by decide) ⟨by decide, by decide, by decide⟩

/-- C3, amended: with a positive proving period, on inputs whose `int64`
arithmetic does not overflow, `calcDealExpiration` returns an aligned epoch
(congruent to `PeriodStart - 1` modulo the period) that is not below the
minimum bound and exceeds it by at most three periods less three epochs; it
is the smallest epoch of its residue class not below the bound
(equivalently, less than one period above the bound) exactly when
`PeriodStart % P <= minExp % P`, with Go's truncated remainder. -/
theorem calcDealExpiration64_alignment_gap (fuel minDuration : Nat) (md : DlineInfo)
    (startEpoch : Int) (hP : 0 < md.WPoStProvingPeriod)
    (hno : noOverflow minDuration md startEpoch) :
    ∃ e, calcDealExpiration64 (fuel + 1) minDuration md startEpoch = .ret e ∧
      e ≡ md.PeriodStart - 1 [ZMOD md.WPoStProvingPeriod] ∧
      startEpoch + (minDuration : Int) ≤ e ∧
      e - (startEpoch + (minDuration : Int)) ≤ 3 * md.WPoStProvingPeriod - 3 ∧
      (e - (startEpoch + (minDuration : Int)) < md.WPoStProvingPeriod ↔
        md.PeriodStart.tmod md.WPoStProvingPeriod
          ≤ (startEpoch + (minDuration : Int)).tmod md.WPoStProvingPeriod) ∧
      ((∀ e2 : Int, startEpoch + (minDuration : Int) ≤ e2 → e2 < e →
          ¬ e2 ≡ e [ZMOD md.WPoStProvingPeriod]) ↔
        md.PeriodStart.tmod md.WPoStProvingPeriod
          ≤ (startEpoch + (minDuration : Int)).tmod md.WPoStProvingPeriod) := by
  rw [calcDealExpiration64_eq_exact _ _ _ _ hP hno]
  obtain ⟨e, he, hgap⟩ := calcDealExpiration_alignment_gap fuel minDuration md startEpoch hP
  obtain ⟨e2, he2, hcong⟩ := calcDealExpiration_congruent fuel minDuration md startEpoch hP
  have hee : e2 = e := by
    rw [he] at he2
    exact (Run.ret.inj he2).symm
  subst hee
  exact ⟨e2, he, hcong, hgap⟩

theorem calcDealExpiration64_alignment_gap_witness :
    ∃ e, calcDealExpiration64 (0 + 1) 0 { PeriodStart := 5, WPoStProvingPeriod := 10 } 0
        = .ret e ∧
      e ≡ 5 - 1 [ZMOD 10] ∧
      0 + ((0 : Nat) : Int) ≤ e ∧
      e - (0 + ((0 : Nat) : Int)) ≤ 3 * 10 - 3 ∧
      (e - (0 + ((0 : Nat) : Int)) < 10 ↔
        (5 : Int).tmod 10 ≤ ((0 : Int) + ((0 : Nat) : Int)).tmod 10) ∧
      ((∀ e2 : Int, 0 + ((0 : Nat) : Int) ≤ e2 → e2 < e → ¬ e2 ≡ e [ZMOD 10]) ↔
        (5 : Int).tmod 10 ≤ ((0 : Int) + ((0 : Nat) : Int)).tmod 10) :=
  calcDealExpiration64_alignment_gap 0 0 { PeriodStart := 5, WPoStProvingPeriod := 10 } 0
    (by decide) ⟨by decide, by decide, by decide⟩

/-- C16, as stated, fails: with period 2880, phase 1, zero duration and the
start epoch at the largest `int64` value, the first candidate wraps to a
multiple of 64 below the bound, every `exp += 2880` keeps it a multiple of
64, and the bound is not one: the loop never ends, whatever the fuel. -/
theorem calcDealExpiration64_never_returns :
    (0 : Int) < 2880 ∧
      ¬ ∃ fuel e, calcDealExpiration64 fuel 0 { PeriodStart := 1, WPoStProvingPeriod := 2880 }
        9223372036854775807 = .ret e := by
  refine ⟨by decide, ?_⟩
  rintro ⟨fuel, e, h⟩
  have hfc : firstCandidate64 9223372036854775807 { PeriodStart := 1, WPoStProvingPeriod := 2880 }
      = -9223372036854774016 := by decide
  have hmin : wrap64 (9223372036854775807 + wrap64 ((0 : Nat) : Int)) = 9223372036854775807 := by
    decide
  unfold calcDealExpiration64 at h
  simp only [hmin, hfc] at h
  rw [if_neg (by decide)] at h
  rw [alignLoop64_stuck fuel _ (by decide) (by decide)] at h
  exact absurd h (by simp)

/-- C16, amended: with a period length above zero, on inputs whose `int64`
arithmetic does not overflow, `calcDealExpiration` terminates and returns an
epoch: one iteration of the alignment loop is always enough and the value
does not depend on the fuel; on every input the run panics (division by
zero) exactly when the period length is zero. -/
theorem calcDealExpiration64_terminates (minDuration : Nat) (md : DlineInfo)
    (startEpoch : Int) :
    (0 < md.WPoStProvingPeriod → noOverflow minDuration md startEpoch →
      ∃ e, ∀ fuel, calcDealExpiration64 (fuel + 1) minDuration md startEpoch = .ret e) ∧
    (∀ fuel, calcDealExpiration64 fuel minDuration md startEpoch = .panic ↔
      md.WPoStProvingPeriod = 0) := by
  refine ⟨fun hP hno => ?_, fun fuel => ?_⟩
  · exact ⟨_, fun fuel => (calcDealExpiration64_eq_exact _ _ _ _ hP hno).trans
      (calcDealExpiration_eq fuel minDuration md startEpoch hP)⟩
  · unfold calcDealExpiration64
    by_cases h0 : md.WPoStProvingPeriod = 0
    · simp [h0]
    · simp only [h0, if_false, iff_false]
      exact alignLoop64_ne_panic _ _ _ _

theorem calcDealExpiration64_terminates_witness :
    ∃ e, ∀ fuel,
      calcDealExpiration64 (fuel + 1) 5 { PeriodStart := -3, WPoStProvingPeriod := 10 } 7
        = .ret e :=
  (calcDealExpiration64_terminates 5 { PeriodStart := -3, WPoStProvingPeriod := 10 } 7).1
    (by decide) ⟨by decide, by decide, by decide⟩

/-- C17, as stated, fails: with period `3 * 2^60`, phase one below the period
(not negative), zero duration and start epoch five above the period, the
first candidate wraps below the minimum bound, so the loop body runs (no
result without fuel) and the result after four iterations is not the value
of the formula. -/
theorem calcDealExpiration64_first_candidate_wraps :
    (0 : Int) < 3458764513820540928 ∧ (0 : Int) ≤ 3458764513820540927 ∧
      firstCandidate64 (wrap64 (3458764513820540933 + wrap64 ((0 : Nat) : Int)))
          { PeriodStart := 3458764513820540927, WPoStProvingPeriod := 3458764513820540928 }
        < wrap64 (3458764513820540933 + wrap64 ((0 : Nat) : Int)) ∧
      calcDealExpiration64 0 0
          { PeriodStart := 3458764513820540927, WPoStProvingPeriod := 3458764513820540928 }
          3458764513820540933 = .unfinished ∧
      calcDealExpiration64 4 0
          { PeriodStart := 3458764513820540927, WPoStProvingPeriod := 3458764513820540928 }
          3458764513820540933 = .ret 5764607523034234878 ∧
      (5764607523034234878 : Int) ≠
        3458764513820540933 + ((0 : Nat) : Int) + 3458764513820540928
          - (3458764513820540933 + ((0 : Nat) : Int)).tmod 3458764513820540928
          + (3458764513820540927 : Int).tmod 3458764513820540928 - 1 := by
  refine ⟨by decide, by decide, by decide, by decide, by decide, by decide⟩

/-- C17, amended: with a period length above zero and a phase that is not
negative, on inputs whose `int64` arithmetic does not overflow, the first
candidate is already at or above the minimum bound, so the body of the
alignment loop never runs (no fuel is needed) and the result is
`minExp + P - minExp % P + PeriodStart % P - 1` with Go's truncated
remainder; without overflow a first candidate below the bound needs a
negative phase. -/
theorem calcDealExpiration64_first_candidate (minDuration : Nat) (md : DlineInfo)
    (startEpoch : Int) (hP : 0 < md.WPoStProvingPeriod)
    (hno : noOverflow minDuration md startEpoch) :
    (0 ≤ md.PeriodStart →
      startEpoch + (minDuration : Int) ≤
          startEpoch + (minDuration : Int) + md.WPoStProvingPeriod
            - (startEpoch + (minDuration : Int)).tmod md.WPoStProvingPeriod
            + md.PeriodStart.tmod md.WPoStProvingPeriod - 1 ∧
        ∀ fuel, calcDealExpiration64 fuel minDuration md startEpoch =
          .ret (startEpoch + (minDuration : Int) + md.WPoStProvingPeriod
            - (startEpoch + (minDuration : Int)).tmod md.WPoStProvingPeriod
            + md.PeriodStart.tmod md.WPoStProvingPeriod - 1)) ∧
    (firstCandidate64 (startEpoch + (minDuration : Int)) md < startEpoch + (minDuration : Int) →
      md.PeriodStart < 0) := by
  have hex := calcDealExpiration_first_candidate minDuration md startEpoch hP
  refine ⟨fun hPS => ⟨(hex.1 hPS).1, fun fuel => ?_⟩, fun hlt => ?_⟩
  · rw [calcDealExpiration64_eq_exact _ _ _ _ hP hno]
    exact (hex.1 hPS).2 fuel
  · rw [firstCandidate64_eq _ md hP hno.2.1 hno.2.2] at hlt
    exact hex.2 hlt

theorem calcDealExpiration64_first_candidate_witness :
    calcDealExpiration64 0 20 { PeriodStart := 5, WPoStProvingPeriod := 10 } 50 =
      .ret (50 + ((20 : Nat) : Int) + 10 - (50 + ((20 : Nat) : Int)).tmod 10
        + (5 : Int).tmod 10 - 1) :=
  ((calcDealExpiration64_first_candidate 20 { PeriodStart := 5, WPoStProvingPeriod := 10 } 50
    (by decide) ⟨by decide, by decide, by decide⟩).1 (by decide)).2 0

end Client
